import Mathlib

/-!
# heka AMQP output: `AMQPOutput.Init` and `AMQPOutput.Run`

A shallow embedding of `src/plugins/amqp/amqp_output.go`.

The plugin talks to collaborators that are not part of the sources (the
connection hub, the broker channel, the encoder, the record pool).  Every call
to a collaborator is recorded, with the answer it gave, as one `Action` of a
trace; the answers themselves are inputs of the model (`InitResponses`,
`Responses`).  The blocking `select` of the publish loop is driven by a list of
`SelectEvent`s: the outcome of each successive `select`.
-/

namespace Heka.AMQP

/-! ## Data model -/

/-- Payload bytes (`[]byte`). -/
abbrev Bytes := List UInt8

/-- Handle of an `AMQPChannel` issued by the hub. -/
structure Channel where
  id : Nat
deriving DecidableEq, Repr

/-- Handle of a `*sync.WaitGroup`. -/
structure WaitGroup where
  id : Nat
deriving DecidableEq, Repr

/-- An `AMQPConnectionHub`: the package-level hub (`amqpHub`, what
`getAmqpHub()` returns) or one injected into the plugin. -/
inductive Hub where
  | global
  | injected (id : Nat)
deriving DecidableEq, Repr

/-- Modelled from the spec: `tcp.TlsConfig` is declared outside the sources; the
"TLS configuration construction from a generic config block" only hands it to
`tcp.CreateGoTlsConfig`, so its settings are kept as uninterpreted pairs. -/
structure TlsConfig where
  settings : List (String × String)
deriving DecidableEq, Repr

/-- The `amqp.Table` of extra arguments of a declaration. -/
abbrev Table := List (String × Int)

/-- AMQP Output config struct (`AMQPOutputConfig`). -/
structure AMQPOutputConfig where
  URL : String
  Exchange : String
  ExchangeType : String
  ExchangeDurability : Bool
  ExchangeAutoDelete : Bool
  RoutingKey : String
  Persistent : Bool
  Serialize : Bool
  Tls : TlsConfig
  ContentType : String
  Encoder : String
  UseFraming : Bool
  Queue : Bool
  QueueDurability : Bool
  QueueExclusive : Bool
  QueueAutoDelete : Bool
  QueueTTL : Int
deriving DecidableEq, Repr

/-- The plugin state (`AMQPOutput`); every field is a pointer or an interface
in the source and is `none` while it is nil. -/
structure AMQPOutput where
  config : Option AMQPOutputConfig
  ch : Option Channel
  closeChan : Option Channel
  usageWg : Option WaitGroup
  connWg : Option WaitGroup
  amqpHub : Option Hub
deriving DecidableEq, Repr

/-- Modelled from the spec: the record's message, of which the plugin only reads
the "record-derived identifier (a logger/category field on the record)". -/
structure Message where
  Logger : String
deriving DecidableEq, Repr

/-- Modelled from the spec: `Message.GetLogger`, the getter of the record-derived
identifier; the `message` package is not part of the sources. -/
def Message.GetLogger (m : Message) : String := m.Logger

/-- Modelled from the spec: a record (`*PipelinePack`), an "opaque payload
entering the engine" that carries its message. -/
structure PipelinePack where
  Message : Message
deriving DecidableEq, Repr

/-- The envelope `amqp.Publishing`, with the four fields `Run` sets. -/
structure Publishing where
  DeliveryMode : Nat
  Timestamp : Nat
  ContentType : String
  Body : Bytes
deriving DecidableEq, Repr

/-- What `QueueDeclare` returns beside its error (`amqp.Queue`). -/
structure Queue where
  Name : String
  Messages : Nat
  Consumers : Nat
deriving DecidableEq, Repr

/-- The four results of `AMQPConnectionHub.GetChannel`. -/
structure GetChannelResult where
  ch : Channel
  usageWg : WaitGroup
  connectionWg : WaitGroup
  err : Option String
deriving DecidableEq, Repr

/-- An operand handed to `fmt.Println` / `fmt.Printf`. -/
inductive Printed where
  | str (s : String)
  | tlsConf
  | waitGroup (w : WaitGroup)
  | queue (q : Queue)
deriving DecidableEq, Repr

/-- One observable step of the plugin: a call to a collaborator with the
arguments it was given and, where it has one, the answer it gave. -/
inductive Action where
  | createGoTlsConfig (tls : TlsConfig) (err : Option String)
  | getChannel (hub : Hub) (url : String) (res : GetChannelResult)
  | notifyClose (ch : Channel)
  | exchangeDeclare (ch : Channel) (name kind : String)
      (durable autoDelete internal noWait : Bool) (args : Option Table) (err : Option String)
  | queueDeclare (ch : Channel) (name : String)
      (durable autoDelete exclusive noWait : Bool) (args : Option Table)
      (q : Queue) (err : Option String)
  | queueBind (ch : Channel) (name key exchange : String) (noWait : Bool)
      (args : Option Table) (err : Option String)
  | receive (pack : PipelinePack)
  | getLogger (pack : PipelinePack)
  | encode (pack : PipelinePack) (out : Option Bytes) (err : Option String)
  | logError (msg : String)
  | recycle (pack : PipelinePack)
  | print (operands : List Printed)
  | publish (ch : Channel) (exchange key : String) (mandatory immediate : Bool)
      (msg : Publishing) (err : Option String)
  | done (wg : WaitGroup)
  | hubClose (hub : Hub) (url : String) (connWg : Option WaitGroup)
  | wait (wg : WaitGroup)
  | stopRead
deriving DecidableEq, Repr

/-- `strings.HasPrefix`. -/
def HasPrefix (s pre : String) : Bool := pre.data.isPrefixOf s.data

/-! ## `Init` -/

/-- The answers of the collaborators `Init` calls. -/
structure InitResponses where
  tls : Option String
  getChannel : GetChannelResult
  exchangeDeclare : Option String
deriving DecidableEq, Repr

/-- What `Init` leaves behind: the plugin state, the calls made, the error. -/
structure InitResult where
  ao : AMQPOutput
  trace : List Action
  err : Option String
deriving DecidableEq, Repr

/-- `func (ao *AMQPOutput) Init(config interface{}) (err error)`. -/
def Init (ao : AMQPOutput) (conf : AMQPOutputConfig) (r : InitResponses) : InitResult :=
  let ao := { ao with config := some conf }
  let tlsTrace : List Action :=
    if HasPrefix conf.URL "amqps://" then [.createGoTlsConfig conf.Tls r.tls] else []
  match (if HasPrefix conf.URL "amqps://" then r.tls else none) with
  | some e => ⟨ao, tlsTrace, some ("TLS init error: " ++ e)⟩
  | none =>
    let hub := match ao.amqpHub with
      | none => Hub.global
      | some h => h
    let ao := { ao with amqpHub := some hub }
    let t := tlsTrace ++ [.getChannel hub conf.URL r.getChannel]
    match r.getChannel.err with
    | some e => ⟨ao, t, some e⟩
    | none =>
      let ch := r.getChannel.ch
      let usageWg := r.getChannel.usageWg
      let ao := { ao with connWg := some r.getChannel.connectionWg, usageWg := some usageWg,
                          closeChan := some ch }
      let t := t ++ [.notifyClose ch]
      if !conf.Queue then
        let t := t ++ [.exchangeDeclare ch conf.Exchange conf.ExchangeType
          conf.ExchangeDurability conf.ExchangeAutoDelete false false none r.exchangeDeclare]
        match r.exchangeDeclare with
        | some e => ⟨ao, t ++ [.done usageWg], some e⟩
        | none => ⟨{ ao with ch := some ch }, t, none⟩
      else
        ⟨{ ao with ch := some ch }, t, none⟩

/-! ## `Run` -/

/-- The answers of the collaborators called while one record is processed. -/
structure Responses where
  tls : Option String
  getChannel : GetChannelResult
  exchangeDeclare : Option String
  queueDeclare : Queue × Option String
  queueBind : Option String
  encode : Option Bytes × Option String
  now : Nat
  publish : Option String
deriving DecidableEq, Repr

/-- The outcome of one `select` of the publish loop: the stop channel was
chosen, a record was received from the input channel, or the input channel was
found closed. -/
inductive SelectEvent where
  | stop
  | recv (pack : PipelinePack) (r : Responses)
  | closed
deriving DecidableEq, Repr

/-- The `OutputRunner` as `Run` sees it before the loop: whether `or.Encoder()`
is non-nil.  (`or.Encode` and `or.LogError` are calls recorded in the trace.) -/
structure OutputRunner where
  hasEncoder : Bool
deriving DecidableEq, Repr

/-- The environment of one `Run`: the successive outcomes of the loop's
`select` (none left: the `select` blocks for ever), whether `ao.connWg.Wait()`
returns, and whether the broker's close notification is delivered after the
loop when it was not before (so that the stop channel gets closed). -/
structure Env where
  events : List SelectEvent
  connDrains : Bool
  closeSignal : Bool
deriving DecidableEq, Repr

/-- How a call ends. -/
inductive Outcome where
  | returned (err : Option String)
  | blocked
  | panicked
deriving DecidableEq, Repr

/-- How the body of `case pack, ok = <-inChan` ends for a received record:
the loop goes on (`continue`, or the end of the body with `ok` still true),
the publish failed (`ok = false`), a `return` left `Run`, or a nil dereference. -/
inductive PackResult where
  | next (err : Option String)
  | publishFailed (err : String)
  | returned (err : String)
  | panicked
deriving DecidableEq, Repr

/-- The block `if conf.Queue { ... }` of `Run` (lines 195-237): the calls it
makes and, when it leaves `Run` by a `return`, the error returned.  Its `err`
is declared with `:=` inside the block and shadows the named result. -/
def declareDynamic (conf : AMQPOutputConfig) (pack : PipelinePack) (r : Responses) :
    List Action × Option String :=
  let logger := pack.Message.GetLogger
  let tlsTrace : List Action :=
    if HasPrefix conf.URL "amqps://" then [.createGoTlsConfig conf.Tls r.tls] else []
  match (if HasPrefix conf.URL "amqps://" then r.tls else none) with
  | some e => (tlsTrace ++ [.print [.str "%v", .tlsConf]], some ("TLS init error: " ++ e))
  | none =>
    let t := tlsTrace ++ [.getChannel Hub.global conf.URL r.getChannel]
    match r.getChannel.err with
    | some _ =>
      (t ++ [.print [.str "%v", .waitGroup r.getChannel.connectionWg]],
        some "Failed to get channel.")
    | none =>
      let ch := r.getChannel.ch
      let usageWg := r.getChannel.usageWg
      let t := t ++ [.getLogger pack,
        .exchangeDeclare ch logger conf.ExchangeType conf.ExchangeDurability
          conf.ExchangeAutoDelete false false none r.exchangeDeclare]
      match r.exchangeDeclare with
      | some _ => (t ++ [.done usageWg], some "Failed to declare Exchange.")
      | none =>
        let t := t ++ [.getLogger pack,
          .queueDeclare ch logger conf.QueueDurability conf.QueueAutoDelete
            conf.QueueExclusive false none r.queueDeclare.1 r.queueDeclare.2,
          .print [.str "%v\n", .queue r.queueDeclare.1]]
        match r.queueDeclare.2 with
        | some _ => (t ++ [.done usageWg], some "Failed to declare queue.")
        | none =>
          let t := t ++ [
            .print [.str "===============> LOGGER 1111111111111111<=============\n"],
            .getLogger pack, .print [.str "%s\n", .str logger],
            .print [.str "%s\n", .str conf.RoutingKey],
            .getLogger pack, .getLogger pack, .getLogger pack,
            .queueBind ch logger logger logger false none r.queueBind]
          match r.queueBind with
          | some _ => (t ++ [.done usageWg], some "Failed to bind queue.")
          | none => (t, none)

/-- The statements after the dynamic block (lines 238-266): encode, recycle,
build the envelope, publish.  `err` is the named result of `Run`, which
`or.Encode` and `ao.ch.Publish` both assign. -/
def encodeAndPublish (conf : AMQPOutputConfig) (ao : AMQPOutput) (persist : Nat)
    (pack : PipelinePack) (r : Responses) : List Action × PackResult :=
  let queue_name := pack.Message.GetLogger
  let t : List Action := [.getLogger pack, .encode pack r.encode.1 r.encode.2]
  match r.encode.2 with
  | some e =>
    (t ++ [.logError ("Error encoding message: " ++ e), .recycle pack], .next (some e))
  | none =>
    match r.encode.1 with
    | none => (t ++ [.recycle pack], .next none)
    | some outBytes =>
      let amqpMsg : Publishing :=
        { DeliveryMode := persist, Timestamp := r.now,
          ContentType := conf.ContentType, Body := outBytes }
      let t := t ++ [.recycle pack,
        .print [.str "===============> LOGGER 22222222222222 <=============\n"],
        .getLogger pack, .print [.str "%s\n", .str pack.Message.GetLogger],
        .print [.str "%s\n", .str queue_name],
        .print [.str "%s\n", .str conf.RoutingKey]]
      match ao.ch with
      | none => (t, .panicked)
      | some ch =>
        let t := t ++ [.publish ch queue_name queue_name false false amqpMsg r.publish]
        match r.publish with
        | some e => (t, .publishFailed e)
        | none => (t, .next none)

/-- The whole body of `case pack, ok = <-inChan` for a received record. -/
def processPack (conf : AMQPOutputConfig) (ao : AMQPOutput) (persist : Nat)
    (pack : PipelinePack) (r : Responses) : List Action × PackResult :=
  if conf.Queue then
    match declareDynamic conf pack r with
    | (t, some e) => (.receive pack :: t, .returned e)
    | (t, none) =>
      let s := encodeAndPublish conf ao persist pack r
      (.receive pack :: t ++ s.1, s.2)
  else
    let s := encodeAndPublish conf ao persist pack r
    (.receive pack :: s.1, s.2)

/-- How the loop `for ok { select { ... } }` ends. -/
inductive LoopExit where
  | inputClosed
  | stopped
  | publishFailed
  | returned
  | panicked
  | blocked
deriving DecidableEq, Repr

/-- The calls made by the loop, how it ended, and the value of `err` then. -/
structure LoopResult where
  trace : List Action
  exit : LoopExit
  err : Option String
deriving DecidableEq, Repr

/-- The loop `for ok { select { case <-stopChan: ... case pack, ok = <-inChan: ... } }`,
started with the named result `err`. -/
def loop (conf : AMQPOutputConfig) (ao : AMQPOutput) (persist : Nat) :
    List SelectEvent → Option String → LoopResult
  | [], err => ⟨[], .blocked, err⟩
  | .stop :: _, err => ⟨[], .stopped, err⟩
  | .closed :: _, err => ⟨[], .inputClosed, err⟩
  | .recv pack r :: rest, _ =>
    match processPack conf ao persist pack r with
    | (t, .next err) =>
      let l := loop conf ao persist rest err
      ⟨t ++ l.trace, l.exit, l.err⟩
    | (t, .publishFailed e) => ⟨t, .publishFailed, some e⟩
    | (t, .returned e) => ⟨t, .returned, some e⟩
    | (t, .panicked) => ⟨t, .panicked, none⟩

/-- What `Run` leaves behind: the calls made and how it ended. -/
structure RunResult where
  trace : List Action
  outcome : Outcome
deriving DecidableEq, Repr

/-- The statements after the loop (lines 269-273).  `stopSeen` tells whether the
loop already found the stop channel closed. -/
def shutdown (conf : AMQPOutputConfig) (ao : AMQPOutput) (env : Env) (stopSeen : Bool)
    (err : Option String) : RunResult :=
  match ao.usageWg with
  | none => ⟨[], .panicked⟩
  | some usageWg =>
    match ao.amqpHub with
    | none => ⟨[.done usageWg], .panicked⟩
    | some hub =>
      let t : List Action := [.done usageWg, .hubClose hub conf.URL ao.connWg]
      match ao.connWg with
      | none => ⟨t, .panicked⟩
      | some connWg =>
        if !env.connDrains then ⟨t ++ [.wait connWg], .blocked⟩
        else if stopSeen || (ao.closeChan.isSome && env.closeSignal) then
          ⟨t ++ [.wait connWg, .stopRead], .returned err⟩
        else ⟨t ++ [.wait connWg, .stopRead], .blocked⟩

/-- `func (ao *AMQPOutput) Run(or OutputRunner, h PluginHelper) (err error)`.
The goroutine that waits on `ao.closeChan` and then closes the stop channel is
part of the environment: it is what makes a `select` choose `stop`, and what
`env.closeSignal` stands for at the final read of the stop channel. -/
def Run (ao : AMQPOutput) (or : OutputRunner) (env : Env) : RunResult :=
  if !or.hasEncoder then ⟨[], .returned (some "Encoder required.")⟩
  else
    match ao.config with
    | none => ⟨[], .panicked⟩
    | some conf =>
      let persist : Nat := if conf.Persistent then 1 else 0
      let l := loop conf ao persist env.events none
      match l.exit with
      | .returned => ⟨l.trace, .returned l.err⟩
      | .panicked => ⟨l.trace, .panicked⟩
      | .blocked => ⟨l.trace, .blocked⟩
      | .stopped =>
        let s := shutdown conf ao env true l.err
        ⟨l.trace ++ s.trace, s.outcome⟩
      | .inputClosed =>
        let s := shutdown conf ao env false l.err
        ⟨l.trace ++ s.trace, s.outcome⟩
      | .publishFailed =>
        let s := shutdown conf ao env false l.err
        ⟨l.trace ++ s.trace, s.outcome⟩

/-! ## Observations on traces -/

/-- The (exchange, routing key) pair of a publish call. -/
def publishTarget : Action → Option (String × String)
  | .publish _ exchange key _ _ _ _ => some (exchange, key)
  | _ => none

/-- The (exchange, routing key) pairs of the publish calls, in call order. -/
def publishTargets (t : List Action) : List (String × String) := t.filterMap publishTarget

/-- The body of a publish call. -/
def publishBody : Action → Option Bytes
  | .publish _ _ _ _ _ msg _ => some msg.Body
  | _ => none

/-- The bodies of the publish calls, in call order. -/
def publishBodies (t : List Action) : List Bytes := t.filterMap publishBody

/-- The record of a receive from the input channel. -/
def receivedPack : Action → Option PipelinePack
  | .receive p => some p
  | _ => none

/-- The records received from the input channel, in order. -/
def received (t : List Action) : List PipelinePack := t.filterMap receivedPack

/-- The record of a `Recycle` call. -/
def recycledPack : Action → Option PipelinePack
  | .recycle p => some p
  | _ => none

/-- The records handed to `Recycle`, in call order. -/
def recycled (t : List Action) : List PipelinePack := t.filterMap recycledPack

/-- The usage wait group handed out by a successful `GetChannel` call. -/
def acquiredWg : Action → Option WaitGroup
  | .getChannel _ _ res =>
    match res.err with
    | none => some res.usageWg
    | some _ => none
  | _ => none

/-- The usage wait groups handed out by successful `GetChannel` calls, in order. -/
def acquired (t : List Action) : List WaitGroup := t.filterMap acquiredWg

/-- The wait group of a `Done` call. -/
def releasedWg : Action → Option WaitGroup
  | .done w => some w
  | _ => none

/-- The wait groups on which `Done` was called, in call order. -/
def released (t : List Action) : List WaitGroup := t.filterMap releasedWg

/-- The shutdown steps: `Done` on a wait group, the hub's `Close`, `Wait`. -/
def isShutdownStep : Action → Bool
  | .done _ => true
  | .hubClose _ _ _ => true
  | .wait _ => true
  | _ => false

/-- The topology declarations: `ExchangeDeclare`, `QueueDeclare`, `QueueBind`. -/
def isDeclaration : Action → Bool
  | .exchangeDeclare _ _ _ _ _ _ _ _ _ => true
  | .queueDeclare _ _ _ _ _ _ _ _ _ => true
  | .queueBind _ _ _ _ _ _ _ => true
  | _ => false

/-- A publish call that returned an error. -/
def isFailedPublish : Action → Bool
  | .publish _ _ _ _ _ _ (some _) => true
  | _ => false

/-- The loop ended in one of the three ways that lead to the statements after
it: input exhausted, stop signal, publish error. -/
def LoopExit.reachesShutdown : LoopExit → Bool
  | .inputClosed => true
  | .stopped => true
  | .publishFailed => true
  | _ => false

/-- The body the encoder produced for a record, when it is one to publish:
no error and a non-nil result. -/
def encodedBody (r : Responses) : Option Bytes :=
  match r.encode.2 with
  | some _ => none
  | none => r.encode.1

/-- The trace `t` ends with a publish call that returned the error `e`, and no
earlier publish call of `t` returned an error. -/
def EndsAtFailedPublish (t : List Action) (e : String) : Prop :=
  ∃ init ch x k m i msg,
    t = init ++ [.publish ch x k m i msg (some e)] ∧ init.filter isFailedPublish = []

/-! ## The hosting pipeline's lifecycle -/

/-- `Init` followed by `Run`, as the hosting pipeline drives them: `Run` is
started only when `Init` returned nil. -/
def InitThenRun (ao : AMQPOutput) (conf : AMQPOutputConfig) (ir : InitResponses)
    (or : OutputRunner) (env : Env) : RunResult :=
  let i := Init ao conf ir
  match i.err with
  | some e => ⟨i.trace, .returned (some e)⟩
  | none =>
    let r := Run i.ao or env
    ⟨i.trace ++ r.trace, r.outcome⟩

/-! ## Concrete inputs -/

/-- A plugin on which `Init` has not run yet. -/
def freshOutput : AMQPOutput := ⟨none, none, none, none, none, none⟩

/-- A static-mode configuration: the defaults of `ConfigStruct` with a URL, an
exchange "logs" of type "topic" and the routing key "rk". -/
def staticConf : AMQPOutputConfig :=
  { URL := "amqp://guest@broker:5672/", Exchange := "logs", ExchangeType := "topic",
    ExchangeDurability := false, ExchangeAutoDelete := true, RoutingKey := "rk",
    Persistent := false, Serialize := false, Tls := ⟨[]⟩,
    ContentType := "application/hekad", Encoder := "ProtobufEncoder", UseFraming := true,
    Queue := false, QueueDurability := false, QueueExclusive := false,
    QueueAutoDelete := true, QueueTTL := -1 }

/-- The same configuration with the dynamic mode switched on. -/
def dynamicConf : AMQPOutputConfig := { staticConf with Queue := true }

/-- A successful `GetChannel`: channel 1, usage group 10, connection group 20. -/
def grant : GetChannelResult := ⟨⟨1⟩, ⟨10⟩, ⟨20⟩, none⟩

/-- A second successful `GetChannel`: channel 2, usage group 11, connection group 20. -/
def grant2 : GetChannelResult := ⟨⟨2⟩, ⟨11⟩, ⟨20⟩, none⟩

/-- Every collaborator of `Init` succeeds. -/
def initOk : InitResponses := ⟨none, grant, none⟩

/-- Every collaborator succeeds and the encoder returns `body`. -/
def allOk (body : Bytes) : Responses :=
  ⟨none, grant2, none, (⟨"", 0, 0⟩, none), none, (some body, none), 0, none⟩

/-- A record whose logger is "hekad". -/
def hekadPack : PipelinePack := ⟨⟨"hekad"⟩⟩

/-- A record whose logger is "orders". -/
def ordersPack : PipelinePack := ⟨⟨"orders"⟩⟩

/-- An environment in which nothing blocks after the loop. -/
def liveEnv (events : List SelectEvent) : Env := ⟨events, true, true⟩

/-- The plugin after a successful `Init` with the static configuration. -/
def staticOutput : AMQPOutput := (Init freshOutput staticConf initOk).ao

/-- The plugin after a successful `Init` with the dynamic configuration. -/
def dynamicOutput : AMQPOutput := (Init freshOutput dynamicConf initOk).ao

/-- Static mode, one record with logger "hekad" that encodes to two bytes and
is published, then the input channel is closed. -/
def staticOneRecordRun : RunResult :=
  Run staticOutput ⟨true⟩ (liveEnv [.recv hekadPack (allOk [1, 2]), .closed])

/-- Dynamic mode, one record for which `ExchangeDeclare` fails. -/
def declareErrorRun : RunResult :=
  Run dynamicOutput ⟨true⟩
    (liveEnv [.recv ordersPack { allOk [1] with exchangeDeclare := some "access refused" },
      .closed])

/-- Static mode, one record whose encoding fails, then the input channel is
closed; no publish call is made. -/
def encodeErrorRun : RunResult :=
  Run staticOutput ⟨true⟩
    (liveEnv [.recv hekadPack { allOk [] with encode := (none, some "bad record") }, .closed])

/-- Static mode, `Init` succeeded, the runner has no encoder. -/
def noEncoderRun : RunResult :=
  Run staticOutput ⟨false⟩ (liveEnv [.recv hekadPack (allOk [1, 2]), .closed])

/-- Static mode, `Init` then `Run` with a runner that has no encoder. -/
def noEncoderLifecycle : RunResult :=
  InitThenRun freshOutput staticConf initOk ⟨false⟩ (liveEnv [.closed])

/-- Dynamic mode, `Init` then `Run` over one record for which every call
succeeds, then the input channel is closed. -/
def dynamicLifecycle : RunResult :=
  InitThenRun freshOutput dynamicConf initOk ⟨true⟩
    (liveEnv [.recv ordersPack (allOk [1]), .closed])

/-! ## `ConfigStruct` -/

/-- `func (ao *AMQPOutput) ConfigStruct() interface{}`: the struct literal of
lines 103-116; the fields it does not name have the zero value of their type
(`""`, `false`, the empty `tcp.TlsConfig`). -/
def ConfigStruct : AMQPOutputConfig :=
  { URL := "", Exchange := "", ExchangeType := "",
    ExchangeDurability := false, ExchangeAutoDelete := true, RoutingKey := "",
    Persistent := false, Serialize := false, Tls := ⟨[]⟩,
    ContentType := "application/hekad", Encoder := "ProtobufEncoder", UseFraming := true,
    Queue := false, QueueDurability := false, QueueExclusive := false,
    QueueAutoDelete := true, QueueTTL := -1 }

/-! ## More observations on traces -/

/-- The settings of a `QueueDeclare` call: durable, auto-delete, exclusive and
the table of extra arguments. -/
def queueSetting : Action → Option (Bool × Bool × Bool × Option Table)
  | .queueDeclare _ _ durable autoDelete exclusive _ args _ _ =>
    some (durable, autoDelete, exclusive, args)
  | _ => none

/-- The settings of the `QueueDeclare` calls, in call order. -/
def queueSettings (t : List Action) : List (Bool × Bool × Bool × Option Table) :=
  t.filterMap queueSetting

/-- A publish call. -/
def isPublish : Action → Bool
  | .publish _ _ _ _ _ _ _ => true
  | _ => false

/-- The read of the stop channel after the loop. -/
def isStopRead : Action → Bool
  | .stopRead => true
  | _ => false

/-- What `Run` does for a record between the encoder's answer and the publish
call: the encode call that returned `body`, the recycling of the record, and the
four diagnostic prints (with the read of the record's logger they need). -/
def encodedThenRecycled (conf : AMQPOutputConfig) (p : PipelinePack) (body : Bytes) :
    List Action :=
  [.encode p (some body) none, .recycle p,
    .print [.str "===============> LOGGER 22222222222222 <=============\n"],
    .getLogger p, .print [.str "%s\n", .str p.Message.GetLogger],
    .print [.str "%s\n", .str p.Message.GetLogger],
    .print [.str "%s\n", .str conf.RoutingKey]]

/-- Every publish call of the trace `t` carries the delivery mode `persist`, the
configured content type, and as body the bytes returned by the encode call that
stands before it (followed only by the recycling and the diagnostic prints). -/
def PublishesEncoded (conf : AMQPOutputConfig) (persist : Nat) (t : List Action) : Prop :=
  ∀ a b ch x k m i msg e, t = a ++ Action.publish ch x k m i msg e :: b →
    msg.DeliveryMode = persist ∧ msg.ContentType = conf.ContentType ∧
      ∃ p, encodedThenRecycled conf p msg.Body <:+ a

/-! ## The `select` of the loop under a close signal -/

/-- The number of publish calls `Run` issues while it processes one record. -/
def publishCount (conf : AMQPOutputConfig) (ao : AMQPOutput) (persist : Nat)
    (x : PipelinePack × Responses) : Nat :=
  ((processPack conf ao persist x.1 x.2).1.filter isPublish).length

/-- The outcomes of the successive `select`s of the loop when the records
`queued` wait on the input channel (which stays open) and the broker's close
signal fires, closing the stop channel, right after the `k`-th publish call.
`n` counts the publish calls issued so far.  As long as the stop channel is
open only the input channel can proceed; once it is closed both cases can
proceed while a record is queued, and Go chooses one of them: `picks` lists the
choices made at those `select`s, `false` for the input channel and `true` (or no
choice left) for the stop channel. -/
def selectOutcomes (conf : AMQPOutputConfig) (ao : AMQPOutput) (persist : Nat) (k : Nat) :
    Nat → List Bool → List (PipelinePack × Responses) → List SelectEvent
  | n, _, [] => if k ≤ n then [.stop] else []
  | n, picks, x :: rest =>
    if k ≤ n then
      match picks with
      | false :: picks' =>
        .recv x.1 x.2 :: selectOutcomes conf ao persist k (n + publishCount conf ao persist x)
          picks' rest
      | _ => [.stop]
    else
      .recv x.1 x.2 :: selectOutcomes conf ao persist k (n + publishCount conf ao persist x)
        picks rest

/-- Every call `Run` makes for a record succeeds: in dynamic mode the TLS
configuration (needed for an `amqps://` URL only), the channel acquisition and
the three declarations; in both modes the encoder returns a body without error
and the publish call returns nil. -/
def everyCallSucceeds (conf : AMQPOutputConfig) (r : Responses) : Bool :=
  (!conf.Queue ||
    ((!HasPrefix conf.URL "amqps://" || decide (r.tls = none)) &&
      decide (r.getChannel.err = none) && decide (r.exchangeDeclare = none) &&
      decide (r.queueDeclare.2 = none) && decide (r.queueBind = none))) &&
  (encodedBody r).isSome && decide (r.publish = none)

/-! ## More concrete inputs -/

/-- The dynamic configuration with durable, exclusive queues that are not
deleted automatically and a message TTL of 5000 ms. -/
def ttlConf : AMQPOutputConfig :=
  { dynamicConf with QueueDurability := true, QueueExclusive := true,
                     QueueAutoDelete := false, QueueTTL := 5000 }

/-- Dynamic mode with the TTL configuration, one record for which every call
succeeds, then the input channel is closed. -/
def ttlRun : RunResult :=
  Run (Init freshOutput ttlConf initOk).ao ⟨true⟩
    (liveEnv [.recv ordersPack (allOk [1]), .closed])

/-- Static mode, the input channel is closed at once, the connection reference
drains, and the broker's close notification is never delivered. -/
def noCloseSignalRun : RunResult :=
  Run staticOutput ⟨true⟩ ⟨[.closed], true, false⟩

/-- Four queued records that all encode and publish, except that the third
publish call is answered with an error (the channel is closed by then). -/
def fourQueued : List (PipelinePack × Responses) :=
  [(hekadPack, allOk [1]), (hekadPack, allOk [2]),
    (hekadPack, { allOk [3] with publish := some "channel/connection is not open" }),
    (hekadPack, allOk [4])]

/-- Static mode, four queued records, the close signal fires after the second
publish call, and the next `select` chooses the input channel. -/
def lateStopRun : RunResult :=
  Run staticOutput ⟨true⟩
    ⟨selectOutcomes staticConf staticOutput 0 2 0 [false] fourQueued, true, true⟩

end Heka.AMQP

/-!
# heka JSON encoder: `writeQuotedString` and `JsonEncoder.Encode`

A shallow embedding of `src/plugins/json_encoder.go`.  A Go `string` is a Lean
`String`; `for _, c := range str` visits its code points, `str.toList`.  The
content of a `bytes.Buffer` is the list of the code points written to it (its
bytes are their UTF-8 encoding).  The functions of the Go standard library the
encoder calls are parameters of the model (`Externals`).
-/

namespace Heka.Plugins

/-! ## Data model -/

/-- The content of a `bytes.Buffer`. -/
abbrev Buffer := List Char

/-- `(*bytes.Buffer).WriteString`. -/
def WriteString (b : Buffer) (s : String) : Buffer := b ++ s.toList

/-- `(*bytes.Buffer).WriteByte`, for a byte below 0x80. -/
def WriteByte (b : Buffer) (c : Char) : Buffer := b ++ [c]

/-- `(*bytes.Buffer).WriteRune`. -/
def WriteRune (b : Buffer) (c : Char) : Buffer := b ++ [c]

/-- The functions and constants the encoder takes from outside the sources:
the Go standard library and the `NEWLINE` byte of the `pipeline` package. -/
structure Externals where
  /-- Go `strings.ToLower`. -/
  ToLower : String → String
  /-- Go `strconv.Itoa`. -/
  Itoa : Int → String
  /-- Go `strconv.FormatInt(v, 10)`. -/
  FormatInt : Int → String
  /-- Go `strconv.FormatFloat(v, 'g', -1, 64)`, of a float64 given by its bits. -/
  FormatFloat : Nat → String
  /-- Go `strconv.FormatBool`. -/
  FormatBool : Bool → String
  /-- Go `strconv.Quote`. -/
  Quote : String → String
  /-- Go `base64.StdEncoding.EncodeToString`. -/
  EncodeToString : List UInt8 → String
  /-- Go `time.Unix(0, ns).UTC().Format(layout)`, as a function of layout and ns. -/
  FormatTime : String → Int → String
  /-- The conversion `string(data)` of a byte slice. -/
  bytesToString : List UInt8 → String
  /-- The constant `NEWLINE` of the `pipeline` package. -/
  NEWLINE : Char

/-- Modelled from the spec: the value of a dynamic message field, tagged by its
value type (`message.Field_STRING`, `Field_BYTES`, `Field_INTEGER`,
`Field_DOUBLE`, `Field_BOOL`); the `message` package is not part of the
sources.  A double is given by its bits. -/
inductive FieldValue where
  | string (s : String)
  | bytes (data : List UInt8)
  | integer (v : Int)
  | double (bits : Nat)
  | bool (v : Bool)
deriving DecidableEq, Repr

/-- Modelled from the spec: a dynamic message field (`*message.Field`), its name
and its first value. -/
structure Field where
  Name : String
  Value : FieldValue
deriving DecidableEq, Repr

/-- Modelled from the spec: the message as its getters present it
(`GetUuidString`, `GetTimestamp`, `GetType`, `GetLogger`, `GetSeverity`,
`GetPayload`, `GetEnvVersion`, `GetPid`, `GetHostname`) and its dynamic
fields; the `message` package is not part of the sources. -/
structure Message where
  UuidString : String
  Timestamp : Int
  Type_ : String
  Logger : String
  Severity : Int
  Payload : String
  EnvVersion : String
  Pid : Int
  Hostname : String
  Fields : List Field
deriving DecidableEq, Repr

/-- Modelled from the spec: a record (`*PipelinePack`) carrying its message. -/
structure PipelinePack where
  Message : Message
deriving DecidableEq, Repr

/-- The encoder state (`JsonEncoder`). -/
structure JsonEncoder where
  fields : List String
  timestampFormat : String
deriving DecidableEq, Repr

/-! ## The writers -/

/-- `func writeField(first bool, b *bytes.Buffer, name string, value string)`. -/
def writeField (first : Bool) (b : Buffer) (name value : String) : Buffer :=
  let b := if !first then WriteString b "," else b
  let b := WriteString b "\""
  let b := WriteString b name
  let b := WriteString b "\":"
  WriteString b value

/-- `const lowerhex = "0123456789abcdef"`. -/
def lowerhex : String := "0123456789abcdef"

/-- The byte `lowerhex[i]`; every index the encoder uses is masked with `0xF`,
so it is below 16 and the default is never returned. -/
def lowerhexAt (i : Nat) : Char := lowerhex.toList.getD i '0'

/-- `func writeUTF16Escape(b *bytes.Buffer, c rune)`. -/
def writeUTF16Escape (b : Buffer) (c : Char) : Buffer :=
  let b := WriteString b "\\u"
  let b := WriteByte b (lowerhexAt ((c.toNat >>> 12) &&& 0xF))
  let b := WriteByte b (lowerhexAt ((c.toNat >>> 8) &&& 0xF))
  let b := WriteByte b (lowerhexAt ((c.toNat >>> 4) &&& 0xF))
  WriteByte b (lowerhexAt (c.toNat &&& 0xF))

/-- The body of the loop of `writeQuotedString` for one code point `c`. -/
def writeQuotedRune (b : Buffer) (c : Char) : Buffer :=
  if c.toNat = 0x20 ∨ c.toNat = 0x21 ∨ (c.toNat ≥ 0x23 ∧ c.toNat ≤ 0x5B) ∨ c.toNat ≥ 0x5D then
    WriteRune b c
  else
    writeUTF16Escape b c

/-- `func writeQuotedString(b *bytes.Buffer, str string)`. -/
def writeQuotedString (b : Buffer) (str : String) : Buffer :=
  let b := WriteString b "\""
  let b := str.toList.foldl writeQuotedRune b
  WriteString b "\""

/-- `func writeStringField(first bool, b *bytes.Buffer, name string, value string)`. -/
def writeStringField (first : Bool) (b : Buffer) (name value : String) : Buffer :=
  let b := if !first then WriteString b "," else b
  let b := writeQuotedString b name
  let b := WriteString b ":"
  writeQuotedString b value

/-- `func writeRawField(first bool, b *bytes.Buffer, name string, value string)`. -/
def writeRawField (first : Bool) (b : Buffer) (name value : String) : Buffer :=
  let b := if !first then WriteString b "," else b
  let b := writeQuotedString b name
  let b := WriteString b ":"
  WriteString b value

/-! ## `Encode` -/

/-- The body of `for _, field := range m.Fields` (lines 160-184), on the buffer
and the local `raw`.  `raw` starts as false and is only ever assigned false, so
its branch is never entered (a value that is not a byte slice would make its
type assertion panic; the buffer is left as it is here). -/
def writeDynamicField (ext : Externals) (first : Bool) (s : Buffer × Bool) (field : Field) :
    Buffer × Bool :=
  if s.2 then
    match field.Value with
    | .bytes data => (writeField first s.1 field.Name (ext.bytesToString data), false)
    | _ => (s.1, false)
  else
    match field.Value with
    | .string v => (writeStringField first s.1 field.Name v, s.2)
    | .bytes data => (writeStringField first s.1 field.Name (ext.EncodeToString data), s.2)
    | .integer v => (writeRawField first s.1 field.Name (ext.FormatInt v), s.2)
    | .double bits => (writeRawField first s.1 field.Name (ext.FormatFloat bits), s.2)
    | .bool v => (writeRawField first s.1 field.Name (ext.FormatBool v), s.2)

/-- One case of `switch strings.ToLower(f)` (lines 138-188): the buffer after
the member for the configured name `f` is written, or `none` in the `default`
case. -/
def encodeField (ext : Externals) (e : JsonEncoder) (m : Message) (first : Bool)
    (buf : Buffer) (f : String) : Option Buffer :=
  if ext.ToLower f = "uuid" then some (writeStringField first buf f m.UuidString)
  else if ext.ToLower f = "timestamp" then
    some (writeStringField first buf f (ext.FormatTime e.timestampFormat m.Timestamp))
  else if ext.ToLower f = "type" then some (writeStringField first buf f m.Type_)
  else if ext.ToLower f = "logger" then some (writeStringField first buf f m.Logger)
  else if ext.ToLower f = "severity" then some (writeRawField first buf f (ext.Itoa m.Severity))
  else if ext.ToLower f = "payload" then some (writeStringField first buf f m.Payload)
  else if ext.ToLower f = "envversion" then
    some (writeRawField first buf f (ext.Quote m.EnvVersion))
  else if ext.ToLower f = "pid" then some (writeRawField first buf f (ext.Itoa m.Pid))
  else if ext.ToLower f = "hostname" then some (writeStringField first buf f m.Hostname)
  else if ext.ToLower f = "fields" then
    some (m.Fields.foldl (writeDynamicField ext first) (buf, false)).1
  else none

/-- The loop `for _, f := range e.fields` (lines 137-190) from the name list,
the local `first` and the buffer: the buffer at the end of the loop, or the
error with which the `default` case returns. -/
def encodeFields (ext : Externals) (e : JsonEncoder) (m : Message) :
    List String → Bool → Buffer → Except String Buffer
  | [], _, buf => .ok buf
  | f :: fs, first, buf =>
    match encodeField ext e m first buf f with
    | none => .error ("Unable to find field: " ++ f)
    | some buf' => encodeFields ext e m fs false buf'

/-- `func (e *JsonEncoder) Encode(pack *PipelinePack) (output []byte, err error)`:
the output (`none` for nil) and the error (`none` for nil). -/
def Encode (ext : Externals) (e : JsonEncoder) (pack : PipelinePack) :
    Option Buffer × Option String :=
  let m := pack.Message
  let buf := WriteString [] "\x7b"
  match encodeFields ext e m e.fields true buf with
  | .error msg => (none, some msg)
  | .ok buf =>
    let buf := WriteString buf "\x7d"
    let buf := WriteByte buf ext.NEWLINE
    (some buf, none)

/-! ## What the claims speak of -/

/-- The field names `Encode` knows, in lower case. -/
def knownFields : List String :=
  ["uuid", "timestamp", "type", "logger", "severity", "payload", "envversion", "pid",
    "hostname", "fields"]

/-- The four lowercase hexadecimal digits of `n`, most significant first. -/
def hex4 (n : Nat) : List Char :=
  [lowerhexAt (n / 4096 % 16), lowerhexAt (n / 256 % 16), lowerhexAt (n / 16 % 16),
    lowerhexAt (n % 16)]

/-- The encoding of one character as the claim words it: a double quote, a
backslash and a code point below 0x20 become `\u` and the four lowercase
hexadecimal digits of the character, every other character stays as it is. -/
def escapeAsStated (c : Char) : List Char :=
  if c = '"' ∨ c = '\\' ∨ c.toNat < 0x20 then '\\' :: 'u' :: hex4 c.toNat else [c]

/-- The value of a lowercase hexadecimal digit. -/
def hexValue (c : Char) : Nat := lowerhex.toList.indexOf c

/-- Un-escaping: `\u` followed by four hexadecimal digits stands for the
character with that code, every other character for itself. -/
def unescape : List Char → List Char
  | [] => []
  | '\\' :: 'u' :: h₁ :: h₂ :: h₃ :: h₄ :: rest =>
    Char.ofNat (hexValue h₁ * 4096 + hexValue h₂ * 256 + hexValue h₃ * 16 + hexValue h₄)
      :: unescape rest
  | c :: rest => c :: unescape rest

/-! ## Concrete inputs -/

/-- The lower-case form of an ASCII string. -/
def asciiToLower (s : String) : String := String.mk (s.toList.map Char.toLower)

/-- Stand-ins for the external functions, for the concrete inputs below: ASCII
lower-casing, decimal numbers, and empty texts for what the inputs do not use. -/
def testExternals : Externals :=
  { ToLower := asciiToLower, Itoa := fun n => toString n, FormatInt := fun n => toString n,
    FormatFloat := fun _ => "", FormatBool := fun b => if b then "true" else "false",
    Quote := fun s => "\"" ++ s ++ "\"", EncodeToString := fun _ => "",
    FormatTime := fun _ _ => "", bytesToString := fun _ => "", NEWLINE := '\n' }

/-- A message with the uuid "abc" and the given dynamic fields. -/
def testMessage (fields : List Field) : Message :=
  { UuidString := "abc", Timestamp := 0, Type_ := "t", Logger := "l", Severity := 6,
    Payload := "p", EnvVersion := "", Pid := 1, Hostname := "h", Fields := fields }

end Heka.Plugins

namespace Heka.AMQP

/-! ## Lemmas on the loop -/

theorem declareDynamic_ok_filter (conf : AMQPOutputConfig) (p : PipelinePack) (r : Responses)
    (h : (declareDynamic conf p r).2 = none) :
    (declareDynamic conf p r).1.filter isShutdownStep = [] := by
  unfold declareDynamic at h ⊢
  repeat' split at h
  all_goals simp_all [isShutdownStep]

theorem encodeAndPublish_filter_shutdown (conf : AMQPOutputConfig) (ao : AMQPOutput)
    (persist : Nat) (p : PipelinePack) (r : Responses) :
    (encodeAndPublish conf ao persist p r).1.filter isShutdownStep = [] := by
  unfold encodeAndPublish
  repeat' split
  all_goals simp_all [isShutdownStep]

theorem encodeAndPublish_filter_declaration (conf : AMQPOutputConfig) (ao : AMQPOutput)
    (persist : Nat) (p : PipelinePack) (r : Responses) :
    (encodeAndPublish conf ao persist p r).1.filter isDeclaration = [] := by
  unfold encodeAndPublish
  repeat' split
  all_goals simp_all [isDeclaration]

theorem processPack_filter_shutdown (conf : AMQPOutputConfig) (ao : AMQPOutput)
    (persist : Nat) (p : PipelinePack) (r : Responses)
    (h : ∀ e, (processPack conf ao persist p r).2 ≠ .returned e) :
    (processPack conf ao persist p r).1.filter isShutdownStep = [] := by
  unfold processPack at h ⊢
  by_cases hq : conf.Queue = true
  · simp only [hq, if_true] at h ⊢
    have hd := declareDynamic_ok_filter conf p r
    rcases hdd : declareDynamic conf p r with ⟨t, _ | e⟩
    · simp only [hdd] at hd h ⊢
      simp [isShutdownStep, hd, encodeAndPublish_filter_shutdown]
    · simp [hdd] at h
  · simp [hq, isShutdownStep, encodeAndPublish_filter_shutdown]

theorem processPack_static_filter_declaration (conf : AMQPOutputConfig) (ao : AMQPOutput)
    (persist : Nat) (p : PipelinePack) (r : Responses) (hq : conf.Queue = false) :
    (processPack conf ao persist p r).1.filter isDeclaration = [] := by
  simp [processPack, hq, isDeclaration, encodeAndPublish_filter_declaration]

theorem loop_filter_shutdown (conf : AMQPOutputConfig) (ao : AMQPOutput) (persist : Nat) :
    ∀ (events : List SelectEvent) (err : Option String),
      (loop conf ao persist events err).exit ≠ .returned →
      (loop conf ao persist events err).trace.filter isShutdownStep = [] := by
  intro events
  induction events with
  | nil => intro err _; simp [loop]
  | cons ev rest ih =>
    intro err h
    cases ev with
    | stop => simp [loop]
    | closed => simp [loop]
    | recv p r =>
      have hp := processPack_filter_shutdown conf ao persist p r
      rcases hpp : processPack conf ao persist p r with ⟨t, res⟩
      rw [hpp] at hp
      cases res with
      | next e =>
        simp only [loop, hpp] at h ⊢
        simp [hp, ih e h]
      | publishFailed e => simp [loop, hpp, hp]
      | returned e => simp [loop, hpp] at h
      | panicked => simp [loop, hpp, hp]

theorem loop_static_filter_declaration (conf : AMQPOutputConfig) (ao : AMQPOutput)
    (persist : Nat) (hq : conf.Queue = false) :
    ∀ (events : List SelectEvent) (err : Option String),
      (loop conf ao persist events err).trace.filter isDeclaration = [] := by
  intro events
  induction events with
  | nil => intro err; simp [loop]
  | cons ev rest ih =>
    intro err
    cases ev with
    | stop => simp [loop]
    | closed => simp [loop]
    | recv p r =>
      have hp := processPack_static_filter_declaration conf ao persist p r hq
      rcases hpp : processPack conf ao persist p r with ⟨t, res⟩
      rw [hpp] at hp
      cases res <;> simp [loop, hpp, hp, ih]

theorem processPack_static_released (conf : AMQPOutputConfig) (ao : AMQPOutput)
    (persist : Nat) (p : PipelinePack) (r : Responses) (hq : conf.Queue = false) :
    released (processPack conf ao persist p r).1 = [] ∧
      acquired (processPack conf ao persist p r).1 = [] := by
  simp only [processPack, hq]
  unfold encodeAndPublish
  constructor <;>
    · repeat' split
      all_goals simp_all [released, acquired, releasedWg, acquiredWg]

theorem loop_static_released (conf : AMQPOutputConfig) (ao : AMQPOutput)
    (persist : Nat) (hq : conf.Queue = false) :
    ∀ (events : List SelectEvent) (err : Option String),
      released (loop conf ao persist events err).trace = [] ∧
        acquired (loop conf ao persist events err).trace = [] := by
  intro events
  induction events with
  | nil => intro err; simp [loop, released, acquired]
  | cons ev rest ih =>
    intro err
    cases ev with
    | stop => simp [loop, released, acquired]
    | closed => simp [loop, released, acquired]
    | recv p r =>
      have hp := processPack_static_released conf ao persist p r hq
      rcases hpp : processPack conf ao persist p r with ⟨t, res⟩
      rw [hpp] at hp
      cases res with
      | next e =>
        have hi := ih e
        simp only [released, acquired] at hp hi ⊢
        simp [loop, hpp, hp.1, hp.2, hi.1, hi.2]
      | publishFailed e => simpa [loop, hpp] using hp
      | returned e => simpa [loop, hpp] using hp
      | panicked => simpa [loop, hpp] using hp

/-- The calls of `Run` when the loop reaches the statements after it: those of
the loop, then the shutdown steps, the last of which is the read of the stop
channel, reached when `Wait` returns. -/
theorem Run_trace_after_loop (ao : AMQPOutput) (or : OutputRunner) (env : Env)
    (conf : AMQPOutputConfig) (uw cw : WaitGroup) (hub : Hub)
    (hconf : ao.config = some conf) (huw : ao.usageWg = some uw)
    (hhub : ao.amqpHub = some hub) (hcw : ao.connWg = some cw)
    (henc : or.hasEncoder = true)
    (hexit : (loop conf ao (if conf.Persistent then 1 else 0) env.events none).exit.reachesShutdown
      = true) :
    (Run ao or env).trace
      = (loop conf ao (if conf.Persistent then 1 else 0) env.events none).trace
        ++ [.done uw, .hubClose hub conf.URL (some cw), .wait cw]
        ++ (if env.connDrains then [.stopRead] else []) := by
  generalize hg : loop conf ao (if conf.Persistent then 1 else 0) env.events none = l
    at hexit
  rcases l with ⟨t, ex, er⟩
  cases ex <;> simp [LoopExit.reachesShutdown] at hexit <;>
    · by_cases hd : env.connDrains = true <;>
        by_cases hs : (ao.closeChan.isSome && env.closeSignal) = true <;>
        simp [Run, henc, hconf, hg, shutdown, huw, hhub, hcw, hd, hs]

/-- The state and the calls of a successful `Init`. -/
theorem Init_ok (ao : AMQPOutput) (conf : AMQPOutputConfig) (ir : InitResponses)
    (h : (Init ao conf ir).err = none) :
    (Init ao conf ir).ao.config = some conf ∧
      (Init ao conf ir).ao.ch = some ir.getChannel.ch ∧
      (Init ao conf ir).ao.closeChan = some ir.getChannel.ch ∧
      (Init ao conf ir).ao.usageWg = some ir.getChannel.usageWg ∧
      (Init ao conf ir).ao.connWg = some ir.getChannel.connectionWg ∧
      (∃ hub, (Init ao conf ir).ao.amqpHub = some hub) ∧
      released (Init ao conf ir).trace = [] ∧
      acquired (Init ao conf ir).trace = [ir.getChannel.usageWg] := by
  unfold Init at h ⊢
  repeat' split at h
  all_goals simp_all [released, acquired, releasedWg, acquiredWg]

theorem processPack_static_published (conf : AMQPOutputConfig) (ao : AMQPOutput)
    (persist : Nat) (p : PipelinePack) (r : Responses) (ch : Channel)
    (hq : conf.Queue = false) (hch : ao.ch = some ch) (hpub : r.publish = none) :
    ∃ e, (processPack conf ao persist p r).2 = .next e ∧
      publishBodies (processPack conf ao persist p r).1 = (encodedBody r).toList ∧
      received (processPack conf ao persist p r).1 = [p] ∧
      recycled (processPack conf ao persist p r).1 = [p] := by
  simp only [processPack, hq, encodeAndPublish, hch, hpub, encodedBody]
  rcases r.encode with ⟨_ | body, _ | e⟩ <;>
    simp [publishBodies, received, recycled, publishBody, receivedPack, recycledPack]

theorem loop_static_published (conf : AMQPOutputConfig) (ao : AMQPOutput)
    (persist : Nat) (ch : Channel) (hq : conf.Queue = false) (hch : ao.ch = some ch) :
    ∀ (records : List (PipelinePack × Responses)) (err : Option String),
      (∀ x ∈ records, x.2.publish = none) →
      (loop conf ao persist (records.map (fun x => .recv x.1 x.2) ++ [.closed]) err).exit
          = .inputClosed ∧
        publishBodies
            (loop conf ao persist (records.map (fun x => .recv x.1 x.2) ++ [.closed]) err).trace
          = records.filterMap (fun x => encodedBody x.2) ∧
        received
            (loop conf ao persist (records.map (fun x => .recv x.1 x.2) ++ [.closed]) err).trace
          = records.map (fun x => x.1) ∧
        recycled
            (loop conf ao persist (records.map (fun x => .recv x.1 x.2) ++ [.closed]) err).trace
          = records.map (fun x => x.1) := by
  intro records
  induction records with
  | nil => intro err _; simp [loop, publishBodies, received, recycled]
  | cons x rest ih =>
    intro err h
    obtain ⟨e, h2, hb, hr, hc⟩ :=
      processPack_static_published conf ao persist x.1 x.2 ch hq hch (h x (by simp))
    rcases hpp : processPack conf ao persist x.1 x.2 with ⟨t, res⟩
    rw [hpp] at h2 hb hr hc
    simp only at h2 hb hr hc
    subst h2
    obtain ⟨i1, i2, i3, i4⟩ := ih e (fun y hy => h y (by simp [hy]))
    simp only [publishBodies, received, recycled] at hb hr hc i2 i3 i4 ⊢
    simp only [List.map_cons, List.cons_append, loop, hpp, List.filterMap_append, hb, hr, hc,
      i1, i2, i3, i4, List.filterMap_cons]
    cases hx : encodedBody x.2 <;> simp [i1, i2, i3, i4]

theorem shutdown_no_record_step (conf : AMQPOutputConfig) (ao : AMQPOutput) (env : Env)
    (stopSeen : Bool) (err : Option String) :
    publishBodies (shutdown conf ao env stopSeen err).trace = [] ∧
      received (shutdown conf ao env stopSeen err).trace = [] ∧
      recycled (shutdown conf ao env stopSeen err).trace = [] := by
  unfold shutdown
  refine ⟨?_, ?_, ?_⟩ <;>
    · repeat' split
      all_goals simp [publishBodies, received, recycled, publishBody, receivedPack, recycledPack]

theorem split_at_marked {α : Type} (P : α → Bool) :
    ∀ (a init b c : List α) (act pub : α),
      init.filter P = [] → c.filter P = [] → P act = true →
      a ++ act :: b = init ++ pub :: c → a = init ∧ act = pub ∧ b = c := by
  intro a
  induction a with
  | nil =>
    intro init b c act pub hi _ hact h
    cases init with
    | nil => simpa using h
    | cons y init' =>
      simp only [List.nil_append, List.cons_append, List.cons.injEq] at h
      rw [← h.1] at hi
      simp [List.filter_cons, hact] at hi
  | cons z a' ih =>
    intro init b c act pub hi hc hact h
    cases init with
    | nil =>
      simp only [List.nil_append, List.cons_append, List.cons.injEq] at h
      have hmem : act ∈ c := by rw [← h.2]; simp
      have : act ∈ c.filter P := List.mem_filter.2 ⟨hmem, hact⟩
      rw [hc] at this
      simp at this
    | cons y init' =>
      simp only [List.cons_append, List.cons.injEq] at h
      have hi' : init'.filter P = [] := by
        by_cases hy : P y = true
        · simp [List.filter_cons, hy] at hi
        · simpa [List.filter_cons, hy] using hi
      obtain ⟨h1, h2, h3⟩ := ih init' b c act pub hi' hc hact h.2
      exact ⟨by rw [h.1, h1], h2, h3⟩

theorem no_marked_of_filter {α : Type} (P : α → Bool) (t a b : List α) (act : α)
    (ht : t.filter P = []) (hact : P act = true) (h : t = a ++ act :: b) : False := by
  have hmem : act ∈ t := by rw [h]; simp
  have : act ∈ t.filter P := List.mem_filter.2 ⟨hmem, hact⟩
  rw [ht] at this
  simp at this

theorem declareDynamic_filter_failedPublish (conf : AMQPOutputConfig) (p : PipelinePack)
    (r : Responses) : (declareDynamic conf p r).1.filter isFailedPublish = [] := by
  unfold declareDynamic
  repeat' split
  all_goals simp_all [isFailedPublish]

theorem encodeAndPublish_failedPublish (conf : AMQPOutputConfig) (ao : AMQPOutput)
    (persist : Nat) (p : PipelinePack) (r : Responses) :
    ((encodeAndPublish conf ao persist p r).1.filter isFailedPublish = [] ∧
        ∀ e, (encodeAndPublish conf ao persist p r).2 ≠ .publishFailed e) ∨
      ∃ e, EndsAtFailedPublish (encodeAndPublish conf ao persist p r).1 e ∧
        (encodeAndPublish conf ao persist p r).2 = .publishFailed e := by
  unfold encodeAndPublish
  rcases r.encode with ⟨_ | body, _ | e⟩ <;> try (left; simp [isFailedPublish]; done)
  rcases ao.ch with _ | ch <;> try (left; simp [isFailedPublish]; done)
  rcases r.publish with _ | e
  · left; simp [isFailedPublish]
  · right
    exact ⟨e, ⟨_, _, _, _, _, _, _, rfl, by simp [isFailedPublish]⟩, rfl⟩

theorem processPack_failedPublish (conf : AMQPOutputConfig) (ao : AMQPOutput)
    (persist : Nat) (p : PipelinePack) (r : Responses) :
    ((processPack conf ao persist p r).1.filter isFailedPublish = [] ∧
        ∀ e, (processPack conf ao persist p r).2 ≠ .publishFailed e) ∨
      ∃ e, EndsAtFailedPublish (processPack conf ao persist p r).1 e ∧
        (processPack conf ao persist p r).2 = .publishFailed e := by
  have hd := declareDynamic_filter_failedPublish conf p r
  have he := encodeAndPublish_failedPublish conf ao persist p r
  unfold processPack
  by_cases hq : conf.Queue = true
  · simp only [hq, if_true]
    rcases hdd : declareDynamic conf p r with ⟨t, _ | e⟩
    · rw [hdd] at hd
      simp only at hd ⊢
      rcases he with ⟨h1, h2⟩ | ⟨e, ⟨init, ch, x, k, m, i, msg, h1, h2⟩, h3⟩
      · left
        exact ⟨by simp [isFailedPublish, hd, h1], h2⟩
      · right
        refine ⟨e, ⟨.receive p :: t ++ init, ch, x, k, m, i, msg, ?_, ?_⟩, h3⟩
        · simp [h1]
        · simp [isFailedPublish, hd, h2]
    · rw [hdd] at hd
      left
      simp only at hd ⊢
      exact ⟨by simp [isFailedPublish, hd], by simp⟩
  · simp only [hq]
    rcases he with ⟨h1, h2⟩ | ⟨e, ⟨init, ch, x, k, m, i, msg, h1, h2⟩, h3⟩
    · left
      exact ⟨by simp [isFailedPublish, h1], h2⟩
    · right
      refine ⟨e, ⟨.receive p :: init, ch, x, k, m, i, msg, ?_, ?_⟩, h3⟩
      · simp [h1]
      · simp [isFailedPublish, h2]

theorem loop_failedPublish (conf : AMQPOutputConfig) (ao : AMQPOutput) (persist : Nat) :
    ∀ (events : List SelectEvent) (err : Option String),
      ((loop conf ao persist events err).trace.filter isFailedPublish = [] ∧
          (loop conf ao persist events err).exit ≠ .publishFailed) ∨
        ∃ e, EndsAtFailedPublish (loop conf ao persist events err).trace e ∧
          (loop conf ao persist events err).exit = .publishFailed ∧
          (loop conf ao persist events err).err = some e := by
  intro events
  induction events with
  | nil => intro err; left; simp [loop]
  | cons ev rest ih =>
    intro err
    cases ev with
    | stop => left; simp [loop]
    | closed => left; simp [loop]
    | recv p r =>
      have hp := processPack_failedPublish conf ao persist p r
      rcases hpp : processPack conf ao persist p r with ⟨t, res⟩
      rw [hpp] at hp
      simp only at hp
      cases res with
      | next e0 =>
        rcases hp with ⟨h1, _⟩ | ⟨e, _, h3⟩
        · rcases ih e0 with ⟨i1, i2⟩ | ⟨e, ⟨init, ch, x, k, m, i, msg, j1, j2⟩, i2, i3⟩
          · left; simp [loop, hpp, h1, i1, i2]
          · right
            refine ⟨e, ⟨t ++ init, ch, x, k, m, i, msg, ?_, ?_⟩, ?_, ?_⟩
            · simp [loop, hpp, j1]
            · simp [h1, j2]
            · simp [loop, hpp, i2]
            · simp [loop, hpp, i3]
        · simp at h3
      | publishFailed e0 =>
        rcases hp with ⟨_, h2⟩ | ⟨e, h1, h3⟩
        · exact absurd rfl (h2 e0)
        · right
          simp only [PackResult.publishFailed.injEq] at h3
          subst h3
          exact ⟨e0, by simpa [loop, hpp] using h1, by simp [loop, hpp], by simp [loop, hpp]⟩
      | returned e0 =>
        rcases hp with ⟨h1, _⟩ | ⟨e, _, h3⟩
        · left; simp [loop, hpp, h1]
        · simp at h3
      | panicked =>
        rcases hp with ⟨h1, _⟩ | ⟨e, _, h3⟩
        · left; simp [loop, hpp, h1]
        · simp at h3

theorem shutdown_filter_failedPublish (conf : AMQPOutputConfig) (ao : AMQPOutput) (env : Env)
    (stopSeen : Bool) (err : Option String) :
    (shutdown conf ao env stopSeen err).trace.filter isFailedPublish = [] := by
  unfold shutdown
  repeat' split
  all_goals simp [isFailedPublish]

theorem Run_filter_failedPublish (ao : AMQPOutput) (or : OutputRunner) (env : Env)
    (conf : AMQPOutputConfig) (hconf : ao.config = some conf)
    (h : (loop conf ao (if conf.Persistent then 1 else 0) env.events none).trace.filter
      isFailedPublish = []) :
    (Run ao or env).trace.filter isFailedPublish = [] := by
  unfold Run
  by_cases henc : or.hasEncoder = true
  · simp only [henc, hconf]
    generalize loop conf ao (if conf.Persistent then 1 else 0) env.events none = l at h
    rcases l with ⟨t, ex, er⟩
    cases ex <;> simp_all [shutdown_filter_failedPublish]
  · simp [henc]

theorem Run_outcome_publishFailed (ao : AMQPOutput) (or : OutputRunner) (env : Env)
    (conf : AMQPOutputConfig) (uw cw : WaitGroup) (hub : Hub) (nc : Channel)
    (hconf : ao.config = some conf) (huw : ao.usageWg = some uw)
    (hhub : ao.amqpHub = some hub) (hcw : ao.connWg = some cw)
    (hcc : ao.closeChan = some nc) (henc : or.hasEncoder = true)
    (hexit : (loop conf ao (if conf.Persistent then 1 else 0) env.events none).exit
      = .publishFailed) :
    (Run ao or env).outcome
      = (if env.connDrains && env.closeSignal
          then .returned (loop conf ao (if conf.Persistent then 1 else 0) env.events none).err
          else .blocked) := by
  generalize hg : loop conf ao (if conf.Persistent then 1 else 0) env.events none = l
    at hexit
  by_cases hd : env.connDrains = true <;> by_cases hs : env.closeSignal = true <;>
    simp [Run, henc, hconf, hg, hexit, shutdown, huw, hhub, hcw, hcc, hd, hs]

theorem shutdown_filter_declaration (conf : AMQPOutputConfig) (ao : AMQPOutput) (env : Env)
    (stopSeen : Bool) (err : Option String) :
    (shutdown conf ao env stopSeen err).trace.filter isDeclaration = [] := by
  unfold shutdown
  repeat' split
  all_goals simp [isDeclaration]

theorem Run_static_filter_declaration (ao : AMQPOutput) (or : OutputRunner) (env : Env)
    (conf : AMQPOutputConfig) (hconf : ao.config = some conf) (hq : conf.Queue = false) :
    (Run ao or env).trace.filter isDeclaration = [] := by
  have hl := loop_static_filter_declaration conf ao (if conf.Persistent then 1 else 0) hq
    env.events none
  unfold Run
  by_cases henc : or.hasEncoder = true
  · simp only [henc, hconf]
    generalize loop conf ao (if conf.Persistent then 1 else 0) env.events none = l at hl
    rcases l with ⟨t, ex, er⟩
    cases ex <;> simp_all [shutdown_filter_declaration]
  · simp [henc]

theorem Init_config (ao : AMQPOutput) (conf : AMQPOutputConfig) (ir : InitResponses) :
    (Init ao conf ir).ao.config = some conf := by
  unfold Init
  repeat' split
  all_goals simp_all

theorem loop_append (conf : AMQPOutputConfig) (ao : AMQPOutput) (persist : Nat) :
    ∀ (front rest : List SelectEvent) (err : Option String),
      (loop conf ao persist front err).exit = .blocked →
      loop conf ao persist (front ++ rest) err
        = ⟨(loop conf ao persist front err).trace
            ++ (loop conf ao persist rest (loop conf ao persist front err).err).trace,
          (loop conf ao persist rest (loop conf ao persist front err).err).exit,
          (loop conf ao persist rest (loop conf ao persist front err).err).err⟩ := by
  intro front
  induction front with
  | nil => intro rest err _; simp [loop]
  | cons ev front' ih =>
    intro rest err h
    cases ev with
    | stop => simp [loop] at h
    | closed => simp [loop] at h
    | recv p r =>
      rcases hpp : processPack conf ao persist p r with ⟨t, res⟩
      cases res with
      | next e =>
        simp only [loop, hpp] at h
        simp [loop, hpp, ih rest e h]
      | publishFailed e => simp [loop, hpp] at h
      | returned e => simp [loop, hpp] at h
      | panicked => simp [loop, hpp] at h

theorem loop_recv_trace_prefix (conf : AMQPOutputConfig) (ao : AMQPOutput) (persist : Nat)
    (p : PipelinePack) (r : Responses) (rest : List SelectEvent) (err : Option String) :
    ∃ s, (loop conf ao persist (.recv p r :: rest) err).trace
      = (processPack conf ao persist p r).1 ++ s := by
  rcases hpp : processPack conf ao persist p r with ⟨t, res⟩
  cases res with
  | next e => exact ⟨(loop conf ao persist rest e).trace, by simp [loop, hpp]⟩
  | publishFailed e => exact ⟨[], by simp [loop, hpp]⟩
  | returned e => exact ⟨[], by simp [loop, hpp]⟩
  | panicked => exact ⟨[], by simp [loop, hpp]⟩

theorem Run_trace_loop_prefix (ao : AMQPOutput) (or : OutputRunner) (env : Env)
    (conf : AMQPOutputConfig) (hconf : ao.config = some conf) (henc : or.hasEncoder = true) :
    ∃ s, (Run ao or env).trace
      = (loop conf ao (if conf.Persistent then 1 else 0) env.events none).trace ++ s := by
  unfold Run
  simp only [henc, hconf]
  generalize loop conf ao (if conf.Persistent then 1 else 0) env.events none = l
  rcases l with ⟨t, ex, er⟩
  cases ex
  · exact ⟨_, rfl⟩
  · exact ⟨_, rfl⟩
  · exact ⟨_, rfl⟩
  · exact ⟨[], by simp⟩
  · exact ⟨[], by simp⟩
  · exact ⟨[], by simp⟩

/-! ## The claims -/

/-- C1 (defect of the code): in static mode the publish call does not use the
configured exchange and routing key.  With `Queue = false`, exchange "logs" and
routing key "rk", the one record with logger "hekad" is published to exchange
"hekad" with routing key "hekad". -/
theorem C1_static_publish_uses_logger :
    staticConf.Queue = false ∧
    (staticConf.Exchange, staticConf.RoutingKey) = ("logs", "rk") ∧
    publishTargets staticOneRecordRun.trace = [("hekad", "hekad")] ∧
    staticOneRecordRun.outcome = .returned none := by
  decide

/-- C2 (defect of the code): a record whose per-record declaration fails is
never recycled.  In dynamic mode `Run` receives the record, `ExchangeDeclare`
fails, and `Run` returns "Failed to declare Exchange." with no `Recycle` call. -/
theorem C2_declare_error_skips_recycle :
    dynamicConf.Queue = true ∧
    received declareErrorRun.trace = [ordersPack] ∧
    recycled declareErrorRun.trace = [] ∧
    declareErrorRun.outcome = .returned (some "Failed to declare Exchange.") := by
  decide

/-- C3 (counterexample): `Run` can return without the shutdown steps.  With no
encoder it returns "Encoder required." having made no call at all; after a
per-record declaration error in dynamic mode it returns having called `Done`
only on the wait group of the per-record channel (11), not on `ao.usageWg`
(10), and neither the hub's `Close` nor `Wait`. -/
theorem C3_early_return_skips_shutdown :
    (noEncoderRun.outcome = .returned (some "Encoder required.") ∧
      noEncoderRun.trace.filter isShutdownStep = []) ∧
    (declareErrorRun.outcome = .returned (some "Failed to declare Exchange.") ∧
      declareErrorRun.trace.filter isShutdownStep = [.done ⟨11⟩] ∧
      dynamicOutput.usageWg = some ⟨10⟩) := by
  decide

/-- C3 (amended): when an encoder is present and the loop of `Run` ends by input
exhausted, stop signal or publish error, the shutdown steps are executed exactly
once and in order after the loop (`ao.usageWg.Done()`, the hub's `Close` for
`conf.URL` and `ao.connWg`, `ao.connWg.Wait()`), and `Run` returns when the
connection reference drains and the close notification is delivered; with no
encoder `Run` returns "Encoder required." at once and executes none of them. -/
theorem C3_shutdown_once_after_loop (ao : AMQPOutput) (or : OutputRunner) (env : Env)
    (conf : AMQPOutputConfig) (uw cw : WaitGroup) (hub : Hub) (nc : Channel)
    (hconf : ao.config = some conf) (huw : ao.usageWg = some uw)
    (hhub : ao.amqpHub = some hub) (hcw : ao.connWg = some cw)
    (hcc : ao.closeChan = some nc) :
    (or.hasEncoder = true →
      (loop conf ao (if conf.Persistent then 1 else 0) env.events none).exit.reachesShutdown
        = true →
      (Run ao or env).trace.filter isShutdownStep
          = [.done uw, .hubClose hub conf.URL (some cw), .wait cw] ∧
        (env.connDrains = true → env.closeSignal = true →
          (Run ao or env).outcome
            = .returned (loop conf ao (if conf.Persistent then 1 else 0) env.events none).err)) ∧
    (or.hasEncoder = false →
      Run ao or env = ⟨[], .returned (some "Encoder required.")⟩) := by
  refine ⟨?_, ?_⟩
  · intro henc hexit
    have hl := loop_filter_shutdown conf ao (if conf.Persistent then 1 else 0) env.events none
    generalize hg : loop conf ao (if conf.Persistent then 1 else 0) env.events none = l
      at hexit hl
    have hret : l.exit ≠ .returned := by
      intro h; rw [h] at hexit; simp [LoopExit.reachesShutdown] at hexit
    have hf := hl hret
    rcases l with ⟨t, ex, er⟩
    cases ex <;> simp [LoopExit.reachesShutdown] at hexit <;>
      · simp only at hf
        by_cases hd : env.connDrains = true <;> by_cases hs : env.closeSignal = true <;>
          simp [Run, henc, hconf, hg, shutdown, huw, hhub, hcw, hcc, hf, hd, hs,
            isShutdownStep]
  · intro henc
    simp [Run, henc]

/-- Witness of C3 (amended): static mode, one published record, input closed. -/
theorem C3_shutdown_once_after_loop_witness :
    (staticOneRecordRun.trace.filter isShutdownStep
        = [.done ⟨10⟩, .hubClose Hub.global staticConf.URL (some ⟨20⟩), .wait ⟨20⟩] ∧
      staticOneRecordRun.outcome = .returned none) ∧
    noEncoderRun = ⟨[], .returned (some "Encoder required.")⟩ :=
  have h := C3_shutdown_once_after_loop staticOutput ⟨true⟩
    (liveEnv [.recv hekadPack (allOk [1, 2]), .closed]) staticConf ⟨10⟩ ⟨20⟩ Hub.global ⟨1⟩
    (by decide) (by decide) (by decide) (by decide) (by decide)
  have h' := C3_shutdown_once_after_loop staticOutput ⟨false⟩
    (liveEnv [.recv hekadPack (allOk [1, 2]), .closed]) staticConf ⟨10⟩ ⟨20⟩ Hub.global ⟨1⟩
    (by decide) (by decide) (by decide) (by decide) (by decide)
  ⟨⟨(h.1 (by decide) (by decide)).1, (h.1 (by decide) (by decide)).2 (by decide) (by decide)⟩,
    h'.2 (by decide)⟩

/-- C4 (counterexample): releases and acquisitions of usage references differ.
In static mode with no encoder, `Init` acquires the usage reference 10 and `Run`
returns without releasing it; in dynamic mode with one record for which every
call succeeds, the references 10 (`Init`) and 11 (the record) are acquired and
only 10 is released. -/
theorem C4_acquired_reference_not_released :
    (acquired noEncoderLifecycle.trace = [⟨10⟩] ∧ released noEncoderLifecycle.trace = [] ∧
      noEncoderLifecycle.outcome = .returned (some "Encoder required.")) ∧
    (acquired dynamicLifecycle.trace = [⟨10⟩, ⟨11⟩] ∧
      released dynamicLifecycle.trace = [⟨10⟩] ∧
      dynamicLifecycle.outcome = .returned none) := by
  decide

/-- C4 (amended): in static mode with an encoder present, for every `Init`
followed by `Run` that ends (a failed `Init`, or a `Run` whose loop ends by
input exhausted, stop signal or publish error), the usage references released
are exactly those acquired, each once; with no encoder `Run` releases none. -/
theorem C4_static_reference_symmetry (ao : AMQPOutput) (conf : AMQPOutputConfig)
    (ir : InitResponses) (or : OutputRunner) (env : Env)
    (hq : conf.Queue = false) (henc : or.hasEncoder = true)
    (hend : (Init ao conf ir).err = none →
      (loop conf (Init ao conf ir).ao (if conf.Persistent then 1 else 0)
        env.events none).exit.reachesShutdown = true) :
    released (InitThenRun ao conf ir or env).trace
        = acquired (InitThenRun ao conf ir or env).trace ∧
      released (Run (Init ao conf ir).ao ⟨false⟩ env).trace = [] := by
  refine ⟨?_, by simp [Run, released]⟩
  unfold InitThenRun
  cases hi : (Init ao conf ir).err with
  | some e =>
    simp only
    unfold Init at hi ⊢
    repeat' split at hi
    all_goals simp_all [released, acquired, releasedWg, acquiredWg]
  | none =>
    have hexit := hend hi
    obtain ⟨hcfg, _, _, huw, hcw, ⟨hub, hhub⟩, hrel, hacq⟩ := Init_ok ao conf ir hi
    have hl := loop_static_released conf (Init ao conf ir).ao
      (if conf.Persistent then 1 else 0) hq env.events none
    have ht := Run_trace_after_loop (Init ao conf ir).ao or env conf _ _ hub hcfg huw hhub hcw
      henc hexit
    simp only [released, acquired] at hrel hacq hl ⊢
    by_cases hd : env.connDrains = true <;>
      simp [hi, ht, hrel, hacq, hl.1, hl.2, hd, releasedWg, acquiredWg]

/-- Witness of C4 (amended): static mode, `Init` succeeds, one record is
published, the input channel is closed. -/
theorem C4_static_reference_symmetry_witness :
    (staticConf.Queue = false ∧
      (loop staticConf (Init freshOutput staticConf initOk).ao
        (if staticConf.Persistent then 1 else 0)
        (liveEnv [.recv hekadPack (allOk [1, 2]), .closed]).events none).exit.reachesShutdown
        = true) ∧
    released (InitThenRun freshOutput staticConf initOk ⟨true⟩
        (liveEnv [.recv hekadPack (allOk [1, 2]), .closed])).trace
      = acquired (InitThenRun freshOutput staticConf initOk ⟨true⟩
        (liveEnv [.recv hekadPack (allOk [1, 2]), .closed])).trace ∧
    released (Run (Init freshOutput staticConf initOk).ao ⟨false⟩
        (liveEnv [.recv hekadPack (allOk [1, 2]), .closed])).trace = [] :=
  ⟨⟨by decide, by decide⟩,
    C4_static_reference_symmetry freshOutput staticConf initOk ⟨true⟩
      (liveEnv [.recv hekadPack (allOk [1, 2]), .closed]) (by decide) (by decide)
      (fun _ => by decide)⟩

/-- C5 (defect of the code): an encode failure of the last record processed is
returned by `Run`.  In static mode the one record fails to encode with "bad
record"; the failure is logged, no publish call is made, the input channel is
then closed, and `Run` returns the error "bad record" instead of nil. -/
theorem C5_encode_error_is_returned :
    staticConf.Queue = false ∧
    publishTargets encodeErrorRun.trace = [] ∧
    Action.logError "Error encoding message: bad record" ∈ encodeErrorRun.trace ∧
    encodeErrorRun.outcome = .returned (some "bad record") := by
  decide

/-- C6: in static mode, when the input is a finite sequence of records followed
by the closing of the input channel, the stop signal is not chosen and every
publish succeeds, every record is received and recycled in arrival order and
the bodies of the publish calls, in call order, are the encoder outputs of the
records in arrival order, those with an encode error or a nil result left out. -/
theorem C6_static_bodies_in_arrival_order (ao : AMQPOutput) (conf : AMQPOutputConfig)
    (ch : Channel) (or : OutputRunner) (records : List (PipelinePack × Responses))
    (connDrains closeSignal : Bool)
    (hconf : ao.config = some conf) (hch : ao.ch = some ch) (hq : conf.Queue = false)
    (henc : or.hasEncoder = true) (hpub : ∀ x ∈ records, x.2.publish = none) :
    publishBodies (Run ao or
        ⟨records.map (fun x => .recv x.1 x.2) ++ [.closed], connDrains, closeSignal⟩).trace
      = records.filterMap (fun x => encodedBody x.2) ∧
    received (Run ao or
        ⟨records.map (fun x => .recv x.1 x.2) ++ [.closed], connDrains, closeSignal⟩).trace
      = records.map (fun x => x.1) ∧
    recycled (Run ao or
        ⟨records.map (fun x => .recv x.1 x.2) ++ [.closed], connDrains, closeSignal⟩).trace
      = records.map (fun x => x.1) := by
  obtain ⟨h1, h2, h3, h4⟩ := loop_static_published conf ao (if conf.Persistent then 1 else 0)
    ch hq hch records none hpub
  obtain ⟨s1, s2, s3⟩ := shutdown_no_record_step conf ao
    ⟨records.map (fun x => .recv x.1 x.2) ++ [.closed], connDrains, closeSignal⟩ false
    (loop conf ao (if conf.Persistent then 1 else 0)
      (records.map (fun x => .recv x.1 x.2) ++ [.closed]) none).err
  simp only [publishBodies, received, recycled] at h2 h3 h4 s1 s2 s3 ⊢
  simp [Run, henc, hconf, h1, h2, h3, h4, s1, s2, s3]

/-- Witness of C6: three records in static mode; the second fails to encode,
the third encodes to nil; only the body of the first is published. -/
theorem C6_static_bodies_in_arrival_order_witness :
    publishBodies (Run staticOutput ⟨true⟩
        ⟨[(hekadPack, allOk [1, 2]),
            (ordersPack, { allOk [3] with encode := (none, some "bad record") }),
            (hekadPack, { allOk [4] with encode := (none, none) }),
            (ordersPack, allOk [5])].map (fun x => .recv x.1 x.2) ++ [.closed],
          true, true⟩).trace
      = [[1, 2], [5]] ∧
    received (Run staticOutput ⟨true⟩
        ⟨[(hekadPack, allOk [1, 2]),
            (ordersPack, { allOk [3] with encode := (none, some "bad record") }),
            (hekadPack, { allOk [4] with encode := (none, none) }),
            (ordersPack, allOk [5])].map (fun x => .recv x.1 x.2) ++ [.closed],
          true, true⟩).trace
      = [hekadPack, ordersPack, hekadPack, ordersPack] ∧
    recycled (Run staticOutput ⟨true⟩
        ⟨[(hekadPack, allOk [1, 2]),
            (ordersPack, { allOk [3] with encode := (none, some "bad record") }),
            (hekadPack, { allOk [4] with encode := (none, none) }),
            (ordersPack, allOk [5])].map (fun x => .recv x.1 x.2) ++ [.closed],
          true, true⟩).trace
      = [hekadPack, ordersPack, hekadPack, ordersPack] :=
  C6_static_bodies_in_arrival_order staticOutput staticConf ⟨1⟩ ⟨true⟩
    [(hekadPack, allOk [1, 2]),
      (ordersPack, { allOk [3] with encode := (none, some "bad record") }),
      (hekadPack, { allOk [4] with encode := (none, none) }),
      (ordersPack, allOk [5])] true true (by decide) (by decide) (by decide) (by decide)
    (by decide)

/-- C7: a publish failure is fatal and not retried.  Wherever a publish call
that returned the error `e` stands in the calls of `Run`, what follows it is
exactly the shutdown steps (`ao.usageWg.Done()`, the hub's `Close`,
`ao.connWg.Wait()` and, once that returns, the read of the stop channel): no
further receive, encode or publish; and `Run` returns `e` as soon as the
connection reference drains and the close notification is delivered. -/
theorem C7_publish_failure_is_fatal (ao : AMQPOutput) (or : OutputRunner) (env : Env)
    (conf : AMQPOutputConfig) (uw cw : WaitGroup) (hub : Hub) (nc : Channel)
    (hconf : ao.config = some conf) (huw : ao.usageWg = some uw)
    (hhub : ao.amqpHub = some hub) (hcw : ao.connWg = some cw)
    (hcc : ao.closeChan = some nc)
    (a b : List Action) (ch : Channel) (x k : String) (m i : Bool) (msg : Publishing)
    (e : String)
    (h : (Run ao or env).trace = a ++ .publish ch x k m i msg (some e) :: b) :
    b = [.done uw, .hubClose hub conf.URL (some cw), .wait cw]
          ++ (if env.connDrains then [.stopRead] else []) ∧
      (Run ao or env).outcome
        = (if env.connDrains && env.closeSignal then .returned (some e) else .blocked) := by
  have hact : isFailedPublish (.publish ch x k m i msg (some e)) = true := rfl
  have henc : or.hasEncoder = true := by
    by_contra hne
    have : (Run ao or env).trace = [] := by simp [Run, hne]
    rw [this] at h
    simp at h
  rcases loop_failedPublish conf ao (if conf.Persistent then 1 else 0) env.events none with
    ⟨h1, _⟩ | ⟨e', ⟨init, ch', x', k', m', i', msg', j1, j2⟩, h2, h3⟩
  · exact (no_marked_of_filter isFailedPublish _ a b _
      (Run_filter_failedPublish ao or env conf hconf h1) hact h).elim
  · have hexit : (loop conf ao (if conf.Persistent then 1 else 0) env.events
        none).exit.reachesShutdown = true := by rw [h2]; rfl
    have ht := Run_trace_after_loop ao or env conf uw cw hub hconf huw hhub hcw henc hexit
    rw [ht, j1] at h
    have h' : a ++ Action.publish ch x k m i msg (some e) :: b
        = init ++ Action.publish ch' x' k' m' i' msg' (some e')
          :: ([Action.done uw, .hubClose hub conf.URL (some cw), .wait cw]
            ++ (if env.connDrains then [Action.stopRead] else [])) := by
      rw [← h]; simp
    have hc : ([Action.done uw, .hubClose hub conf.URL (some cw), .wait cw]
        ++ (if env.connDrains then [Action.stopRead] else [])).filter isFailedPublish = [] := by
      by_cases hd : env.connDrains = true <;> simp [hd, isFailedPublish]
    obtain ⟨_, hpub, hb⟩ := split_at_marked isFailedPublish a init b _ _ _ j2 hc hact h'
    have he : e = e' := by
      simp only [Action.publish.injEq, Option.some.injEq] at hpub
      exact hpub.2.2.2.2.2.2
    refine ⟨hb, ?_⟩
    rw [Run_outcome_publishFailed ao or env conf uw cw hub nc hconf huw hhub hcw hcc henc h2,
      h3, he]

/-- Witness of C7: static mode, the publish of the second of three records
fails with "channel closed". -/
theorem C7_publish_failure_is_fatal_witness :
    (Run staticOutput ⟨true⟩
        (liveEnv [.recv hekadPack (allOk [1]),
          .recv ordersPack { allOk [2] with publish := some "channel closed" },
          .recv hekadPack (allOk [3]), .closed])).outcome
      = .returned (some "channel closed") :=
  (C7_publish_failure_is_fatal staticOutput ⟨true⟩
    (liveEnv [.recv hekadPack (allOk [1]),
      .recv ordersPack { allOk [2] with publish := some "channel closed" },
      .recv hekadPack (allOk [3]), .closed])
    staticConf ⟨10⟩ ⟨20⟩ Hub.global ⟨1⟩ (by decide) (by decide) (by decide) (by decide)
    (by decide)
    ((processPack staticConf staticOutput 0 hekadPack (allOk [1])).1 ++
      [.receive ordersPack, .getLogger ordersPack, .encode ordersPack (some [2]) none,
        .recycle ordersPack,
        .print [.str "===============> LOGGER 22222222222222 <=============\n"],
        .getLogger ordersPack, .print [.str "%s\n", .str "orders"],
        .print [.str "%s\n", .str "orders"], .print [.str "%s\n", .str "rk"]])
    [.done ⟨10⟩, .hubClose Hub.global staticConf.URL (some ⟨20⟩), .wait ⟨20⟩, .stopRead]
    ⟨1⟩ "orders" "orders" false false ⟨0, 0, "application/hekad", [2]⟩ "channel closed"
    (by decide)).2

/-- C8: in static mode, when `Init` acquires its channel, `Init` calls
`ExchangeDeclare` exactly once, with the configured name, type, durability and
auto-delete flag, `internal = false`, `noWait = false` and nil arguments, and it
makes no other declaration; `Run` makes no declaration at all, whatever its
runner and its input. -/
theorem C8_static_exchange_declared_once (ao : AMQPOutput) (conf : AMQPOutputConfig)
    (ir : InitResponses) (hq : conf.Queue = false)
    (htls : HasPrefix conf.URL "amqps://" = true → ir.tls = none)
    (hch : ir.getChannel.err = none) :
    (Init ao conf ir).trace.filter isDeclaration
        = [.exchangeDeclare ir.getChannel.ch conf.Exchange conf.ExchangeType
            conf.ExchangeDurability conf.ExchangeAutoDelete false false none
            ir.exchangeDeclare] ∧
      ∀ (or : OutputRunner) (env : Env),
        (Run (Init ao conf ir).ao or env).trace.filter isDeclaration = [] := by
  constructor
  · unfold Init
    by_cases hp : HasPrefix conf.URL "amqps://" = true
    · simp only [hp, htls hp, hch, hq]
      cases ir.exchangeDeclare <;> simp [isDeclaration]
    · simp only [hp, hch, hq]
      cases ir.exchangeDeclare <;> simp [isDeclaration]
  · intro or env
    exact Run_static_filter_declaration (Init ao conf ir).ao or env conf
      (Init_config ao conf ir) hq

/-- Witness of C8: the static configuration, a successful `Init`, then a `Run`
over one published record. -/
theorem C8_static_exchange_declared_once_witness :
    (Init freshOutput staticConf initOk).trace.filter isDeclaration
        = [.exchangeDeclare ⟨1⟩ "logs" "topic" false true false false none none] ∧
      (Run (Init freshOutput staticConf initOk).ao ⟨true⟩
        (liveEnv [.recv hekadPack (allOk [1, 2]), .closed])).trace.filter isDeclaration = [] :=
  have h := C8_static_exchange_declared_once freshOutput staticConf initOk (by decide)
    (by decide) (by decide)
  ⟨h.1, h.2 ⟨true⟩ (liveEnv [.recv hekadPack (allOk [1, 2]), .closed])⟩

/-- C9: when the channel is acquired in static mode and the exchange
declaration fails with `e`, `Init` calls `Done` exactly once, on the usage wait
group that `GetChannel` returned, returns `e`, and does not store the channel;
whenever `Init` returns nil it has called `Done` on nothing and has stored the
acquired channel in `ao.ch`. -/
theorem C9_init_releases_on_declare_error (ao : AMQPOutput) (conf : AMQPOutputConfig)
    (ir : InitResponses) :
    (conf.Queue = false → (HasPrefix conf.URL "amqps://" = true → ir.tls = none) →
      ir.getChannel.err = none → ∀ e, ir.exchangeDeclare = some e →
        (Init ao conf ir).err = some e ∧
          released (Init ao conf ir).trace = [ir.getChannel.usageWg] ∧
          (Init ao conf ir).ao.ch = ao.ch) ∧
    ((Init ao conf ir).err = none →
      released (Init ao conf ir).trace = [] ∧
        (Init ao conf ir).ao.ch = some ir.getChannel.ch) := by
  constructor
  · intro hq htls hch e he
    unfold Init
    by_cases hp : HasPrefix conf.URL "amqps://" = true
    · simp [hp, htls hp, hch, hq, he, released, releasedWg]
    · simp [hp, hch, hq, he, released, releasedWg]
  · intro h
    obtain ⟨_, h2, _, _, _, _, h7, _⟩ := Init_ok ao conf ir h
    exact ⟨h7, h2⟩

/-- Witness of C9: the static configuration with a declaration refused by the
broker, and the same configuration with a declaration accepted. -/
theorem C9_init_releases_on_declare_error_witness :
    ((Init freshOutput staticConf ⟨none, grant, some "access refused"⟩).err
          = some "access refused" ∧
        released (Init freshOutput staticConf ⟨none, grant, some "access refused"⟩).trace
          = [⟨10⟩] ∧
        (Init freshOutput staticConf ⟨none, grant, some "access refused"⟩).ao.ch = none) ∧
      (released (Init freshOutput staticConf initOk).trace = [] ∧
        (Init freshOutput staticConf initOk).ao.ch = some ⟨1⟩) :=
  ⟨(C9_init_releases_on_declare_error freshOutput staticConf
      ⟨none, grant, some "access refused"⟩).1 (by decide) (by decide) (by decide)
      "access refused" (by decide),
    (C9_init_releases_on_declare_error freshOutput staticConf initOk).2 (by decide)⟩

/-- C10: in dynamic mode, for a record received by `Run` whose logger is the
identifier, when its channel acquisition and declarations succeed and the
encoder returns a body without error, the calls of `Run` contain, in this order
and with nothing in between: `ExchangeDeclare` for the identifier,
`QueueDeclare` with the identifier as queue name, `QueueBind` with the
identifier as queue name, routing key and exchange name, the encoding and the
recycling of the record, and the publish on `ao.ch` with the identifier as
exchange and as routing key; `conf.Exchange` and `conf.RoutingKey` are not used
as arguments (the routing key is only printed). -/
theorem C10_dynamic_declares_and_publishes_to_logger (ao : AMQPOutput) (or : OutputRunner)
    (conf : AMQPOutputConfig) (ch : Channel) (front rest : List SelectEvent)
    (p : PipelinePack) (r : Responses) (connDrains closeSignal : Bool) (body : Bytes)
    (hconf : ao.config = some conf) (hch : ao.ch = some ch) (hq : conf.Queue = true)
    (henc : or.hasEncoder = true)
    (hfront : (loop conf ao (if conf.Persistent then 1 else 0) front none).exit = .blocked)
    (htls : HasPrefix conf.URL "amqps://" = true → r.tls = none)
    (hget : r.getChannel.err = none) (hex : r.exchangeDeclare = none)
    (hqd : r.queueDeclare.2 = none) (hqb : r.queueBind = none)
    (hbody : r.encode = (some body, none)) :
    [.getLogger p,
          .exchangeDeclare r.getChannel.ch p.Message.GetLogger conf.ExchangeType
            conf.ExchangeDurability conf.ExchangeAutoDelete false false none none,
          .getLogger p,
          .queueDeclare r.getChannel.ch p.Message.GetLogger conf.QueueDurability
            conf.QueueAutoDelete conf.QueueExclusive false none r.queueDeclare.1 none,
          .print [.str "%v\n", .queue r.queueDeclare.1],
          .print [.str "===============> LOGGER 1111111111111111<=============\n"],
          .getLogger p, .print [.str "%s\n", .str p.Message.GetLogger],
          .print [.str "%s\n", .str conf.RoutingKey],
          .getLogger p, .getLogger p, .getLogger p,
          .queueBind r.getChannel.ch p.Message.GetLogger p.Message.GetLogger
            p.Message.GetLogger false none none,
          .getLogger p, .encode p (some body) none, .recycle p,
          .print [.str "===============> LOGGER 22222222222222 <=============\n"],
          .getLogger p, .print [.str "%s\n", .str p.Message.GetLogger],
          .print [.str "%s\n", .str p.Message.GetLogger],
          .print [.str "%s\n", .str conf.RoutingKey],
          .publish ch p.Message.GetLogger p.Message.GetLogger false false
            ⟨if conf.Persistent then 1 else 0, r.now, conf.ContentType, body⟩ r.publish]
      <:+: (Run ao or ⟨front ++ .recv p r :: rest, connDrains, closeSignal⟩).trace := by
  obtain ⟨s, hs⟩ := Run_trace_loop_prefix ao or
    ⟨front ++ .recv p r :: rest, connDrains, closeSignal⟩ conf hconf henc
  obtain ⟨s', hs'⟩ := loop_recv_trace_prefix conf ao (if conf.Persistent then 1 else 0) p r
    rest (loop conf ao (if conf.Persistent then 1 else 0) front none).err
  have happ := loop_append conf ao (if conf.Persistent then 1 else 0) front
    (.recv p r :: rest) none hfront
  have hpp : ∃ a0, (processPack conf ao (if conf.Persistent then 1 else 0) p r).1
      = a0 ++ [.getLogger p,
          .exchangeDeclare r.getChannel.ch p.Message.GetLogger conf.ExchangeType
            conf.ExchangeDurability conf.ExchangeAutoDelete false false none none,
          .getLogger p,
          .queueDeclare r.getChannel.ch p.Message.GetLogger conf.QueueDurability
            conf.QueueAutoDelete conf.QueueExclusive false none r.queueDeclare.1 none,
          .print [.str "%v\n", .queue r.queueDeclare.1],
          .print [.str "===============> LOGGER 1111111111111111<=============\n"],
          .getLogger p, .print [.str "%s\n", .str p.Message.GetLogger],
          .print [.str "%s\n", .str conf.RoutingKey],
          .getLogger p, .getLogger p, .getLogger p,
          .queueBind r.getChannel.ch p.Message.GetLogger p.Message.GetLogger
            p.Message.GetLogger false none none,
          .getLogger p, .encode p (some body) none, .recycle p,
          .print [.str "===============> LOGGER 22222222222222 <=============\n"],
          .getLogger p, .print [.str "%s\n", .str p.Message.GetLogger],
          .print [.str "%s\n", .str p.Message.GetLogger],
          .print [.str "%s\n", .str conf.RoutingKey],
          .publish ch p.Message.GetLogger p.Message.GetLogger false false
            ⟨if conf.Persistent then 1 else 0, r.now, conf.ContentType, body⟩ r.publish] := by
    by_cases hp : HasPrefix conf.URL "amqps://" = true
    · refine ⟨[.receive p, .createGoTlsConfig conf.Tls none,
        .getChannel Hub.global conf.URL r.getChannel], ?_⟩
      simp only [processPack, hq, declareDynamic, hp, htls hp, hget, hex, hqd, hqb,
        encodeAndPublish, hbody, hch]
      cases r.publish <;> simp
    · refine ⟨[.receive p, .getChannel Hub.global conf.URL r.getChannel], ?_⟩
      simp only [processPack, hq, declareDynamic, hp, hget, hex, hqd, hqb,
        encodeAndPublish, hbody, hch]
      cases r.publish <;> simp
  obtain ⟨a0, ha0⟩ := hpp
  refine ⟨(loop conf ao (if conf.Persistent then 1 else 0) front none).trace ++ a0,
    s' ++ s, ?_⟩
  rw [hs]
  simp only [happ, hs', ha0, List.append_assoc]

/-- Witness of C10: dynamic mode, a first record with logger "hekad", then the
record with identifier "orders". -/
theorem C10_dynamic_declares_and_publishes_to_logger_witness :
    [.getLogger ordersPack,
          .exchangeDeclare ⟨2⟩ "orders" "topic" false true false false none none,
          .getLogger ordersPack,
          .queueDeclare ⟨2⟩ "orders" false true false false none ⟨"", 0, 0⟩ none,
          .print [.str "%v\n", .queue ⟨"", 0, 0⟩],
          .print [.str "===============> LOGGER 1111111111111111<=============\n"],
          .getLogger ordersPack, .print [.str "%s\n", .str "orders"],
          .print [.str "%s\n", .str "rk"],
          .getLogger ordersPack, .getLogger ordersPack, .getLogger ordersPack,
          .queueBind ⟨2⟩ "orders" "orders" "orders" false none none,
          .getLogger ordersPack, .encode ordersPack (some [1]) none, .recycle ordersPack,
          .print [.str "===============> LOGGER 22222222222222 <=============\n"],
          .getLogger ordersPack, .print [.str "%s\n", .str "orders"],
          .print [.str "%s\n", .str "orders"],
          .print [.str "%s\n", .str "rk"],
          .publish ⟨1⟩ "orders" "orders" false false ⟨0, 0, "application/hekad", [1]⟩ none]
      <:+: (Run dynamicOutput ⟨true⟩
        ⟨[.recv hekadPack (allOk [7])] ++ .recv ordersPack (allOk [1]) :: [.closed],
          true, true⟩).trace :=
  C10_dynamic_declares_and_publishes_to_logger dynamicOutput ⟨true⟩ dynamicConf ⟨1⟩
    [.recv hekadPack (allOk [7])] [.closed] ordersPack (allOk [1]) true true [1]
    (by decide) (by decide) (by decide) (by decide) (by decide) (by decide) (by decide)
    (by decide) (by decide) (by decide) (by decide)

/-- C11 (defect of the code): the message TTL of the configuration is never
passed to the queue declaration.  In dynamic mode with durable, exclusive,
not auto-deleted queues and `QueueTTL = 5000`, the one `QueueDeclare` call
carries durable, auto-delete and exclusive from the configuration, but nil
arguments: the TTL, which is not -1, is absent. -/
theorem C11_queue_ttl_not_passed :
    (ttlConf.Queue = true ∧ ttlConf.QueueTTL = 5000) ∧
    queueSettings ttlRun.trace
      = [(ttlConf.QueueDurability, ttlConf.QueueAutoDelete, ttlConf.QueueExclusive, none)] ∧
    ttlRun.outcome = .returned none := by
  refine ⟨⟨by decide, by decide⟩, ?_, by decide⟩
  rfl

/-- C16 (defect of the code): `Run` reads the record after it has recycled it.
For a published record the calls contain, in this order, `Recycle` on the
record, the banner print, and `pack.Message.GetLogger()` on the same record
(line 257); the publish itself uses `queue_name`, read before the recycling. -/
theorem C16_record_read_after_recycle :
    [Action.recycle hekadPack,
        .print [.str "===============> LOGGER 22222222222222 <=============\n"],
        .getLogger hekadPack] <:+: staticOneRecordRun.trace ∧
    publishTargets staticOneRecordRun.trace = [("hekad", "hekad")] := by
  decide

/-- C17 (defect of the code): the default configuration has `Serialize = false`,
although the comment of the field says it defaults to true; the other
documented defaults are as documented. -/
theorem C17_default_serialize_is_false :
    ConfigStruct.Serialize = false ∧
    ConfigStruct.ExchangeDurability = false ∧ ConfigStruct.ExchangeAutoDelete = true ∧
    ConfigStruct.RoutingKey = "" ∧ ConfigStruct.Persistent = false ∧
    ConfigStruct.QueueDurability = false ∧ ConfigStruct.QueueExclusive = false ∧
    ConfigStruct.QueueAutoDelete = true ∧ ConfigStruct.QueueTTL = -1 := by
  decide

/-! ## Lemmas on the envelope and on the statements after the loop -/

theorem publishesEncoded_of_filter (conf : AMQPOutputConfig) (persist : Nat) (t : List Action)
    (h : t.filter isPublish = []) : PublishesEncoded conf persist t := by
  intro a b ch x k m i msg e ht
  exact (no_marked_of_filter isPublish t a b (Action.publish ch x k m i msg e) h rfl ht).elim

theorem publishesEncoded_append (conf : AMQPOutputConfig) (persist : Nat) (t₁ t₂ : List Action)
    (h₁ : PublishesEncoded conf persist t₁) (h₂ : PublishesEncoded conf persist t₂) :
    PublishesEncoded conf persist (t₁ ++ t₂) := by
  intro a b ch x k m i msg e ht
  rcases List.append_eq_append_iff.1 ht with ⟨a', ha, hb⟩ | ⟨c', ha, hb⟩
  · obtain ⟨g1, g2, p, g3⟩ := h₂ a' b ch x k m i msg e hb
    refine ⟨g1, g2, p, ?_⟩
    rw [ha]
    exact g3.trans (List.suffix_append t₁ a')
  · cases c' with
    | nil =>
      simp only [List.nil_append] at hb
      simp only [List.append_nil] at ha
      obtain ⟨_, _, p, g3⟩ := h₂ [] b ch x k m i msg e hb.symm
      have := List.IsSuffix.length_le g3
      simp [encodedThenRecycled] at this
    | cons y c'' =>
      simp only [List.cons_append, List.cons.injEq] at hb
      rw [← hb.1] at ha
      exact h₁ a c'' ch x k m i msg e ha

theorem encodeAndPublish_publishesEncoded (conf : AMQPOutputConfig) (ao : AMQPOutput)
    (persist : Nat) (p : PipelinePack) (r : Responses) :
    PublishesEncoded conf persist (encodeAndPublish conf ao persist p r).1 := by
  unfold encodeAndPublish
  rcases r.encode with ⟨_ | body, _ | e⟩ <;>
    first
      | (refine publishesEncoded_of_filter _ _ _ ?_; simp [isPublish]; done)
      | skip
  rcases ao.ch with _ | ch
  · refine publishesEncoded_of_filter _ _ _ ?_
    simp [isPublish]
  · intro a b ch' x k m i msg e ht
    have hsplit := split_at_marked isPublish a
      ([Action.getLogger p] ++ encodedThenRecycled conf p body) b []
      (Action.publish ch' x k m i msg e)
      (Action.publish ch p.Message.GetLogger p.Message.GetLogger false false
        ⟨persist, r.now, conf.ContentType, body⟩ r.publish)
      (by simp [isPublish, encodedThenRecycled]) (by simp) rfl
      (by rw [← ht]; cases r.publish <;> simp [encodedThenRecycled])
    obtain ⟨ha, hpub, _⟩ := hsplit
    simp only [Action.publish.injEq] at hpub
    obtain ⟨_, _, _, _, _, hmsg, _⟩ := hpub
    subst hmsg
    refine ⟨rfl, rfl, p, ?_⟩
    rw [ha]
    exact List.suffix_append _ _

theorem declareDynamic_filter_publish (conf : AMQPOutputConfig) (p : PipelinePack)
    (r : Responses) : (declareDynamic conf p r).1.filter isPublish = [] := by
  unfold declareDynamic
  repeat' split
  all_goals simp_all [isPublish]

theorem processPack_publishesEncoded (conf : AMQPOutputConfig) (ao : AMQPOutput)
    (persist : Nat) (p : PipelinePack) (r : Responses) :
    PublishesEncoded conf persist (processPack conf ao persist p r).1 := by
  have hd := declareDynamic_filter_publish conf p r
  have he := encodeAndPublish_publishesEncoded conf ao persist p r
  unfold processPack
  by_cases hq : conf.Queue = true
  · simp only [hq, if_true]
    rcases hdd : declareDynamic conf p r with ⟨t, _ | e⟩
    · rw [hdd] at hd
      simp only at hd ⊢
      exact publishesEncoded_append conf persist (.receive p :: t) _
        (publishesEncoded_of_filter _ _ _ (by simp [isPublish, hd])) he
    · rw [hdd] at hd
      simp only at hd ⊢
      exact publishesEncoded_of_filter _ _ _ (by simp [isPublish, hd])
  · simp only [hq]
    exact publishesEncoded_append conf persist [.receive p] _
      (publishesEncoded_of_filter _ _ _ (by simp [isPublish])) he

theorem loop_publishesEncoded (conf : AMQPOutputConfig) (ao : AMQPOutput) (persist : Nat) :
    ∀ (events : List SelectEvent) (err : Option String),
      PublishesEncoded conf persist (loop conf ao persist events err).trace := by
  intro events
  induction events with
  | nil => intro err; exact publishesEncoded_of_filter _ _ _ (by simp [loop])
  | cons ev rest ih =>
    intro err
    cases ev with
    | stop => exact publishesEncoded_of_filter _ _ _ (by simp [loop])
    | closed => exact publishesEncoded_of_filter _ _ _ (by simp [loop])
    | recv p r =>
      have hp := processPack_publishesEncoded conf ao persist p r
      rcases hpp : processPack conf ao persist p r with ⟨t, res⟩
      rw [hpp] at hp
      cases res with
      | next e =>
        simp only [loop, hpp]
        exact publishesEncoded_append conf persist t _ hp (ih e)
      | publishFailed e => simpa [loop, hpp] using hp
      | returned e => simpa [loop, hpp] using hp
      | panicked => simpa [loop, hpp] using hp

theorem shutdown_filter_publish (conf : AMQPOutputConfig) (ao : AMQPOutput) (env : Env)
    (stopSeen : Bool) (err : Option String) :
    (shutdown conf ao env stopSeen err).trace.filter isPublish = [] := by
  unfold shutdown
  repeat' split
  all_goals simp [isPublish]

theorem processPack_filter_stopRead (conf : AMQPOutputConfig) (ao : AMQPOutput)
    (persist : Nat) (p : PipelinePack) (r : Responses) :
    (processPack conf ao persist p r).1.filter isStopRead = [] := by
  have hd : (declareDynamic conf p r).1.filter isStopRead = [] := by
    unfold declareDynamic
    repeat' split
    all_goals simp_all [isStopRead]
  have he : (encodeAndPublish conf ao persist p r).1.filter isStopRead = [] := by
    unfold encodeAndPublish
    repeat' split
    all_goals simp_all [isStopRead]
  unfold processPack
  by_cases hq : conf.Queue = true
  · simp only [hq, if_true]
    rcases hdd : declareDynamic conf p r with ⟨t, _ | e⟩ <;> rw [hdd] at hd <;>
      simp only at hd ⊢ <;> simp [isStopRead, hd, he]
  · simp [hq, isStopRead, he]

theorem loop_filter_stopRead (conf : AMQPOutputConfig) (ao : AMQPOutput) (persist : Nat) :
    ∀ (events : List SelectEvent) (err : Option String),
      (loop conf ao persist events err).trace.filter isStopRead = [] := by
  intro events
  induction events with
  | nil => intro err; simp [loop]
  | cons ev rest ih =>
    intro err
    cases ev with
    | stop => simp [loop]
    | closed => simp [loop]
    | recv p r =>
      have hp := processPack_filter_stopRead conf ao persist p r
      rcases hpp : processPack conf ao persist p r with ⟨t, res⟩
      rw [hpp] at hp
      cases res <;> simp [loop, hpp, hp, ih]

/-! ## The claims, continued -/

/-- C12: every publish call of `Run` carries an envelope whose delivery mode is
1 when `conf.Persistent` is true and 0 when it is false, whose content type is
`conf.ContentType`, and whose body is, unchanged, the bytes returned by the
encode call that stands right before it in the calls of `Run` (only the
recycling of that record and the diagnostic prints lie in between). -/
theorem C12_publish_envelope (ao : AMQPOutput) (or : OutputRunner) (env : Env)
    (conf : AMQPOutputConfig) (hconf : ao.config = some conf)
    (a b : List Action) (ch : Channel) (x k : String) (m i : Bool) (msg : Publishing)
    (e : Option String)
    (h : (Run ao or env).trace = a ++ .publish ch x k m i msg e :: b) :
    msg.DeliveryMode = (if conf.Persistent then 1 else 0) ∧
      msg.ContentType = conf.ContentType ∧
      ∃ p, encodedThenRecycled conf p msg.Body <:+ a := by
  have hl := loop_publishesEncoded conf ao (if conf.Persistent then 1 else 0) env.events none
  have hrun : PublishesEncoded conf (if conf.Persistent then 1 else 0) (Run ao or env).trace := by
    unfold Run
    by_cases henc : or.hasEncoder = true
    · simp only [henc, hconf]
      generalize loop conf ao (if conf.Persistent then 1 else 0) env.events none = l at hl
      rcases l with ⟨t, ex, er⟩
      cases ex <;> first
        | exact hl
        | exact publishesEncoded_append conf _ t _ hl
            (publishesEncoded_of_filter _ _ _ (shutdown_filter_publish conf ao env _ _))
    · exact publishesEncoded_of_filter _ _ _ (by simp [henc])
  exact hrun a b ch x k m i msg e h

/-- Witness of C12: static mode, one record encoded to the bytes 1, 2. -/
theorem C12_publish_envelope_witness :
    (⟨0, 0, "application/hekad", [1, 2]⟩ : Publishing).DeliveryMode
        = (if staticConf.Persistent then 1 else 0) ∧
      (⟨0, 0, "application/hekad", [1, 2]⟩ : Publishing).ContentType = staticConf.ContentType ∧
      ∃ p, encodedThenRecycled staticConf p
        (⟨0, 0, "application/hekad", [1, 2]⟩ : Publishing).Body
          <:+ [Action.receive hekadPack, .getLogger hekadPack] ++
            encodedThenRecycled staticConf hekadPack [1, 2] :=
  C12_publish_envelope staticOutput ⟨true⟩ (liveEnv [.recv hekadPack (allOk [1, 2]), .closed])
    staticConf (by decide)
    ([Action.receive hekadPack, .getLogger hekadPack] ++
      encodedThenRecycled staticConf hekadPack [1, 2])
    [.done ⟨10⟩, .hubClose Hub.global staticConf.URL (some ⟨20⟩), .wait ⟨20⟩, .stopRead]
    ⟨1⟩ "hekad" "hekad" false false ⟨0, 0, "application/hekad", [1, 2]⟩ none (by decide)

/-- C13: when the loop of `Run` ends by input exhausted, stop signal or publish
error, the calls of `Run` are those of the loop followed by exactly
`ao.usageWg.Done()`, the hub's `Close` for `conf.URL` and `ao.connWg`,
`ao.connWg.Wait()` and, once `Wait` has returned, one read of the stop channel;
none of these four calls occurs among the calls of the loop, and nothing
follows them. -/
theorem C13_calls_after_loop (ao : AMQPOutput) (or : OutputRunner) (env : Env)
    (conf : AMQPOutputConfig) (uw cw : WaitGroup) (hub : Hub)
    (hconf : ao.config = some conf) (huw : ao.usageWg = some uw)
    (hhub : ao.amqpHub = some hub) (hcw : ao.connWg = some cw)
    (henc : or.hasEncoder = true)
    (hexit : (loop conf ao (if conf.Persistent then 1 else 0) env.events none).exit.reachesShutdown
      = true) :
    (Run ao or env).trace
        = (loop conf ao (if conf.Persistent then 1 else 0) env.events none).trace
          ++ [.done uw, .hubClose hub conf.URL (some cw), .wait cw]
          ++ (if env.connDrains then [.stopRead] else []) ∧
      (loop conf ao (if conf.Persistent then 1 else 0) env.events none).trace.filter
          (fun x => isShutdownStep x || isStopRead x) = [] := by
  refine ⟨Run_trace_after_loop ao or env conf uw cw hub hconf huw hhub hcw henc hexit, ?_⟩
  have h1 := loop_filter_shutdown conf ao (if conf.Persistent then 1 else 0) env.events none
    (by
      intro h
      rw [h] at hexit
      simp [LoopExit.reachesShutdown] at hexit)
  have h2 := loop_filter_stopRead conf ao (if conf.Persistent then 1 else 0) env.events none
  rw [List.filter_eq_nil_iff] at h1 h2 ⊢
  intro x hx
  simp [h1 x hx, h2 x hx]

/-- Witness of C13: static mode, one published record, input closed. -/
theorem C13_calls_after_loop_witness :
    staticOneRecordRun.trace
        = (loop staticConf staticOutput (if staticConf.Persistent then 1 else 0)
            (liveEnv [.recv hekadPack (allOk [1, 2]), .closed]).events none).trace
          ++ [.done ⟨10⟩, .hubClose Hub.global staticConf.URL (some ⟨20⟩), .wait ⟨20⟩]
          ++ (if (liveEnv [.recv hekadPack (allOk [1, 2]), .closed]).connDrains
              then [.stopRead] else []) ∧
      (loop staticConf staticOutput (if staticConf.Persistent then 1 else 0)
          (liveEnv [.recv hekadPack (allOk [1, 2]), .closed]).events none).trace.filter
          (fun x => isShutdownStep x || isStopRead x) = [] :=
  C13_calls_after_loop staticOutput ⟨true⟩ (liveEnv [.recv hekadPack (allOk [1, 2]), .closed])
    staticConf ⟨10⟩ ⟨20⟩ Hub.global (by decide) (by decide) (by decide) (by decide)
    (by decide) (by decide)

/-- C15 (counterexample): the final read of the stop channel blocks `Run` for
ever.  The input channel is closed at once, `Wait` returns, the close
notification is never delivered: `Run` makes the read and never returns. -/
theorem C15_final_read_blocks :
    noCloseSignalRun.trace
        = [.done ⟨10⟩, .hubClose Hub.global staticConf.URL (some ⟨20⟩), .wait ⟨20⟩,
            .stopRead] ∧
      noCloseSignalRun.outcome = .blocked := by
  decide

/-- C15 (amended): when the loop ended because the input was exhausted or a
publish failed, `Run` returns (with the value `err` has at the end of the loop)
exactly when the connection reference drains, so that `Wait` returns, and the
broker's close notification is delivered, so that the stop channel gets closed;
otherwise it stays blocked, in `Wait` or in its single read of the stop
channel. -/
theorem C15_returns_when_close_signal_delivered (ao : AMQPOutput) (or : OutputRunner)
    (env : Env) (conf : AMQPOutputConfig) (uw cw : WaitGroup) (hub : Hub) (nc : Channel)
    (hconf : ao.config = some conf) (huw : ao.usageWg = some uw)
    (hhub : ao.amqpHub = some hub) (hcw : ao.connWg = some cw)
    (hcc : ao.closeChan = some nc) (henc : or.hasEncoder = true)
    (hexit : (loop conf ao (if conf.Persistent then 1 else 0) env.events none).exit
        = .inputClosed ∨
      (loop conf ao (if conf.Persistent then 1 else 0) env.events none).exit
        = .publishFailed) :
    (Run ao or env).outcome
        = (if env.connDrains && env.closeSignal
            then .returned (loop conf ao (if conf.Persistent then 1 else 0) env.events none).err
            else .blocked) ∧
      ((Run ao or env).trace.filter isStopRead).length ≤ 1 := by
  have hr : (loop conf ao (if conf.Persistent then 1 else 0) env.events
      none).exit.reachesShutdown = true := by
    rcases hexit with h | h <;> rw [h] <;> rfl
  have ht := Run_trace_after_loop ao or env conf uw cw hub hconf huw hhub hcw henc hr
  have hs := loop_filter_stopRead conf ao (if conf.Persistent then 1 else 0) env.events none
  constructor
  · generalize hg : loop conf ao (if conf.Persistent then 1 else 0) env.events none = l
      at hexit
    rcases hexit with h | h <;>
      by_cases hd : env.connDrains = true <;> by_cases hsig : env.closeSignal = true <;>
      simp [Run, henc, hconf, hg, h, shutdown, huw, hhub, hcw, hcc, hd, hsig]
  · rw [ht]
    by_cases hd : env.connDrains = true <;> simp [hs, hd, isStopRead]

/-- Witness of C15 (amended): static mode, the input channel is closed at once,
and the close notification is delivered after the loop. -/
theorem C15_returns_when_close_signal_delivered_witness :
    (Run staticOutput ⟨true⟩ (liveEnv [.closed])).outcome
        = (if (liveEnv [.closed]).connDrains && (liveEnv [.closed]).closeSignal
            then .returned (loop staticConf staticOutput
              (if staticConf.Persistent then 1 else 0) (liveEnv [.closed]).events none).err
            else .blocked) ∧
      ((Run staticOutput ⟨true⟩ (liveEnv [.closed])).trace.filter isStopRead).length ≤ 1 :=
  C15_returns_when_close_signal_delivered staticOutput ⟨true⟩ (liveEnv [.closed]) staticConf
    ⟨10⟩ ⟨20⟩ Hub.global ⟨1⟩ (by decide) (by decide) (by decide) (by decide) (by decide)
    (by decide) (Or.inl (by decide))

/-! ## Lemmas on the `select` under a close signal -/

theorem processPack_one_publish (conf : AMQPOutputConfig) (ao : AMQPOutput)
    (persist : Nat) (x : PipelinePack × Responses) (ch : Channel)
    (hch : ao.ch = some ch) (hok : everyCallSucceeds conf x.2 = true) :
    (processPack conf ao persist x.1 x.2).2 = .next none ∧
      ((processPack conf ao persist x.1 x.2).1.filter isPublish).length = 1 := by
  simp only [everyCallSucceeds, Bool.and_eq_true, decide_eq_true_eq] at hok
  obtain ⟨⟨hdecl, h1⟩, h2⟩ := hok
  rcases henc : x.2.encode with ⟨_ | body, _ | e⟩ <;> simp [encodedBody, henc] at h1
  have hd := declareDynamic_filter_publish conf x.1 x.2
  by_cases hq : conf.Queue = true
  · simp only [hq, Bool.not_true, Bool.false_or, Bool.and_eq_true, decide_eq_true_eq,
      Bool.or_eq_true, Bool.not_eq_true'] at hdecl
    obtain ⟨⟨⟨⟨htls, hget⟩, hex⟩, hqd⟩, hqb⟩ := hdecl
    have hnone : (declareDynamic conf x.1 x.2).2 = none := by
      unfold declareDynamic
      rcases htls with hp | ht
      · simp [hp, hget, hex, hqd, hqb]
      · by_cases hp : HasPrefix conf.URL "amqps://" = true
        · simp [hp, ht, hget, hex, hqd, hqb]
        · simp [hp, hget, hex, hqd, hqb]
    rcases hdd : declareDynamic conf x.1 x.2 with ⟨t, res⟩
    rw [hdd] at hd hnone
    simp only at hd hnone
    subst hnone
    simp [processPack, hq, hdd, encodeAndPublish, hch, henc, h2, isPublish, hd]
  · simp [processPack, hq, encodeAndPublish, hch, henc, h2, isPublish]

theorem selectOutcomes_stop_first (conf : AMQPOutputConfig) (ao : AMQPOutput) (persist : Nat)
    (ch : Channel) (hch : ao.ch = some ch) (k : Nat)
    (picks : List Bool) (hpick : picks.head? ≠ some false) :
    ∀ (queued : List (PipelinePack × Responses)) (n : Nat),
      (∀ x ∈ queued, everyCallSucceeds conf x.2 = true) →
      n ≤ k → k - n < queued.length →
      selectOutcomes conf ao persist k n picks queued
        = (queued.take (k - n)).map (fun x => .recv x.1 x.2) ++ [.stop] := by
  intro queued
  induction queued with
  | nil => intro n _ _ h; simp at h
  | cons x rest ih =>
    intro n hok hn hlen
    by_cases hk : k ≤ n
    · have hz : k - n = 0 := by omega
      rw [hz]
      cases picks with
      | nil => simp [selectOutcomes, hk]
      | cons c picks' =>
        cases c with
        | true => simp [selectOutcomes, hk]
        | false => simp at hpick
    · have hcount : publishCount conf ao persist x = 1 :=
        (processPack_one_publish conf ao persist x ch hch (hok x (by simp))).2
      have hs : k - n = (k - (n + 1)) + 1 := by omega
      have hlen' : k - (n + 1) < rest.length := by
        simp only [List.length_cons] at hlen
        omega
      have hstep : selectOutcomes conf ao persist k n picks (x :: rest)
          = .recv x.1 x.2 :: selectOutcomes conf ao persist k
              (n + publishCount conf ao persist x) picks rest := by
        cases picks with
        | nil => simp [selectOutcomes, hk]
        | cons c picks' => cases c <;> simp [selectOutcomes, hk]
      rw [hstep, hcount, ih (n + 1) (fun y hy => hok y (by simp [hy])) (by omega) hlen', hs]
      simp

theorem loop_stopped (conf : AMQPOutputConfig) (ao : AMQPOutput) (persist : Nat)
    (ch : Channel) (hch : ao.ch = some ch) :
    ∀ (records : List (PipelinePack × Responses)) (err : Option String),
      (∀ x ∈ records, everyCallSucceeds conf x.2 = true) →
      (loop conf ao persist (records.map (fun x => .recv x.1 x.2) ++ [.stop]) err).exit
          = .stopped ∧
        ((loop conf ao persist (records.map (fun x => .recv x.1 x.2) ++ [.stop])
          err).trace.filter isPublish).length = records.length := by
  intro records
  induction records with
  | nil => intro err _; simp [loop]
  | cons x rest ih =>
    intro err hok
    obtain ⟨h1, h2⟩ :=
      processPack_one_publish conf ao persist x ch hch (hok x (by simp))
    rcases hpp : processPack conf ao persist x.1 x.2 with ⟨t, res⟩
    rw [hpp] at h1 h2
    simp only at h1 h2
    subst h1
    obtain ⟨i1, i2⟩ := ih none (fun y hy => hok y (by simp [hy]))
    simp [loop, hpp, i1, i2, h2, Nat.add_comm]

/-- C14 (counterexample): a publish call is issued after the close signal has
fired.  Four records are queued and the signal fires after the second publish
call; the next `select` finds both the stop channel and the third record ready
and chooses the record, so `Run` issues a third publish call (answered with an
error by the closed channel): three publish calls, not two. -/
theorem C14_publish_after_close_signal :
    selectOutcomes staticConf staticOutput 0 2 0 [false] fourQueued
        = [.recv hekadPack (allOk [1]), .recv hekadPack (allOk [2]),
            .recv hekadPack { allOk [3] with publish := some "channel/connection is not open" },
            .stop] ∧
      publishBodies lateStopRun.trace = [[1], [2], [3]] ∧
      lateStopRun.outcome = .returned (some "channel/connection is not open") := by
  decide

/-- C14 (amended): in either mode, when more than `k` records for which every
call succeeds are queued, the close signal fires after the `k`-th publish call,
and the `select` that follows chooses the stop channel, `Run` issues exactly `k`
publish calls, the loop ends by the stop signal, and the shutdown steps run
exactly once. -/
theorem C14_stop_chosen_ends_publishing (ao : AMQPOutput) (or : OutputRunner)
    (conf : AMQPOutputConfig) (ch : Channel) (uw cw : WaitGroup) (hub : Hub)
    (queued : List (PipelinePack × Responses)) (k : Nat) (picks : List Bool)
    (connDrains closeSignal : Bool)
    (hconf : ao.config = some conf) (hch : ao.ch = some ch) (huw : ao.usageWg = some uw)
    (hhub : ao.amqpHub = some hub) (hcw : ao.connWg = some cw)
    (henc : or.hasEncoder = true)
    (hok : ∀ x ∈ queued, everyCallSucceeds conf x.2 = true)
    (hlen : k < queued.length) (hpick : picks.head? ≠ some false) :
    ((Run ao or ⟨selectOutcomes conf ao (if conf.Persistent then 1 else 0) k 0 picks queued,
        connDrains, closeSignal⟩).trace.filter isPublish).length = k ∧
      (loop conf ao (if conf.Persistent then 1 else 0)
        (selectOutcomes conf ao (if conf.Persistent then 1 else 0) k 0 picks queued)
        none).exit = .stopped ∧
      (Run ao or ⟨selectOutcomes conf ao (if conf.Persistent then 1 else 0) k 0 picks queued,
        connDrains, closeSignal⟩).trace.filter isShutdownStep
        = [.done uw, .hubClose hub conf.URL (some cw), .wait cw] := by
  have hsel := selectOutcomes_stop_first conf ao (if conf.Persistent then 1 else 0) ch hch
    k picks hpick queued 0 hok (Nat.zero_le k) (by simpa using hlen)
  simp only [Nat.sub_zero] at hsel
  obtain ⟨l1, l2⟩ := loop_stopped conf ao (if conf.Persistent then 1 else 0) ch hch
    (queued.take k) none (fun x hx => hok x (List.mem_of_mem_take hx))
  rw [← hsel] at l1 l2
  have hexit : (loop conf ao (if conf.Persistent then 1 else 0)
      (⟨selectOutcomes conf ao (if conf.Persistent then 1 else 0) k 0 picks queued,
        connDrains, closeSignal⟩ : Env).events none).exit.reachesShutdown = true := by
    simp only [l1]
    rfl
  have ht := Run_trace_after_loop ao or
    ⟨selectOutcomes conf ao (if conf.Persistent then 1 else 0) k 0 picks queued,
      connDrains, closeSignal⟩ conf uw cw hub hconf huw hhub hcw henc hexit
  have hsd := loop_filter_shutdown conf ao (if conf.Persistent then 1 else 0)
    (selectOutcomes conf ao (if conf.Persistent then 1 else 0) k 0 picks queued) none
    (by rw [l1]; simp)
  have hk : (queued.take k).length = k := by
    rw [List.length_take]
    omega
  refine ⟨?_, l1, ?_⟩
  · rw [ht]
    simp only at l2 ⊢
    cases connDrains <;> simp [l2, hk, isPublish]
  · rw [ht]
    simp only at hsd ⊢
    cases connDrains <;> simp [hsd, isShutdownStep]

/-- Witness of C14 (amended): dynamic mode, four queued records for which every
call succeeds, the close signal fires after the second publish call and the
next `select` chooses the stop channel. -/
theorem C14_stop_chosen_ends_publishing_witness :
    ((Run dynamicOutput ⟨true⟩
        ⟨selectOutcomes dynamicConf dynamicOutput (if dynamicConf.Persistent then 1 else 0) 2 0
          [true] [(ordersPack, allOk [1]), (hekadPack, allOk [2]), (ordersPack, allOk [3]),
            (hekadPack, allOk [4])],
        true, true⟩).trace.filter isPublish).length = 2 ∧
      (loop dynamicConf dynamicOutput (if dynamicConf.Persistent then 1 else 0)
        (selectOutcomes dynamicConf dynamicOutput (if dynamicConf.Persistent then 1 else 0) 2 0
          [true] [(ordersPack, allOk [1]), (hekadPack, allOk [2]), (ordersPack, allOk [3]),
            (hekadPack, allOk [4])])
        none).exit = .stopped ∧
      (Run dynamicOutput ⟨true⟩
        ⟨selectOutcomes dynamicConf dynamicOutput (if dynamicConf.Persistent then 1 else 0) 2 0
          [true] [(ordersPack, allOk [1]), (hekadPack, allOk [2]), (ordersPack, allOk [3]),
            (hekadPack, allOk [4])],
        true, true⟩).trace.filter isShutdownStep
        = [.done ⟨10⟩, .hubClose Hub.global dynamicConf.URL (some ⟨20⟩), .wait ⟨20⟩] :=
  C14_stop_chosen_ends_publishing dynamicOutput ⟨true⟩ dynamicConf ⟨1⟩ ⟨10⟩ ⟨20⟩ Hub.global
    [(ordersPack, allOk [1]), (hekadPack, allOk [2]), (ordersPack, allOk [3]),
      (hekadPack, allOk [4])] 2 [true] true true
    (by decide) (by decide) (by decide) (by decide) (by decide) (by decide)
    (by decide) (by decide) (by decide)

end Heka.AMQP

namespace Heka.Plugins

/-! ## Lemmas on the writers -/

theorem char_eq_of_toNat (c : Char) (n : Nat) (h : c.toNat = n) : c = Char.ofNat n := by
  rw [← h, Char.ofNat_toNat]

theorem lowerhexAt_shift (n : Nat) :
    lowerhexAt ((n >>> 12) &&& 0xF) = lowerhexAt (n / 4096 % 16) ∧
      lowerhexAt ((n >>> 8) &&& 0xF) = lowerhexAt (n / 256 % 16) ∧
      lowerhexAt ((n >>> 4) &&& 0xF) = lowerhexAt (n / 16 % 16) ∧
      lowerhexAt (n &&& 0xF) = lowerhexAt (n % 16) := by
  have h : ∀ x : Nat, x &&& 0xF = x % 16 := fun x => Nat.and_pow_two_sub_one_eq_mod x 4
  simp only [h, Nat.shiftRight_eq_div_pow]
  norm_num

theorem writeQuotedRune_eq (b : Buffer) (c : Char) :
    writeQuotedRune b c = b ++ escapeAsStated c := by
  unfold writeQuotedRune escapeAsStated
  by_cases hq : c = '"'
  · subst hq
    simp [writeUTF16Escape, WriteString, WriteByte, hex4]
    decide
  · by_cases hb : c = '\\'
    · subst hb
      simp [writeUTF16Escape, WriteString, WriteByte, hex4]
      decide
    · have hq' : c.toNat ≠ 0x22 := fun h => hq (char_eq_of_toNat c _ h)
      have hb' : c.toNat ≠ 0x5C := fun h => hb (char_eq_of_toNat c _ h)
      by_cases hlow : c.toNat < 0x20
      · have hcond : ¬(c.toNat = 0x20 ∨ c.toNat = 0x21 ∨ (c.toNat ≥ 0x23 ∧ c.toNat ≤ 0x5B)
            ∨ c.toNat ≥ 0x5D) := by omega
        obtain ⟨h1, h2, h3, h4⟩ := lowerhexAt_shift c.toNat
        rw [if_neg hcond, if_pos (Or.inr (Or.inr hlow))]
        simp [writeUTF16Escape, WriteString, WriteByte, hex4, h1, h2, h3, h4]
      · have hcond : c.toNat = 0x20 ∨ c.toNat = 0x21 ∨ (c.toNat ≥ 0x23 ∧ c.toNat ≤ 0x5B)
            ∨ c.toNat ≥ 0x5D := by omega
        rw [if_pos hcond, if_neg (by simp [hq, hb, hlow])]
        rfl

theorem foldl_writeQuotedRune (l : List Char) :
    ∀ b : Buffer, l.foldl writeQuotedRune b = b ++ l.flatMap escapeAsStated := by
  induction l with
  | nil => intro b; simp
  | cons c l ih =>
    intro b
    simp [List.foldl_cons, ih, writeQuotedRune_eq, List.flatMap_cons]

theorem hex4_roundtrip :
    ∀ n < 93, hexValue (lowerhexAt (n / 4096 % 16)) * 4096
      + hexValue (lowerhexAt (n / 256 % 16)) * 256
      + hexValue (lowerhexAt (n / 16 % 16)) * 16 + hexValue (lowerhexAt (n % 16)) = n := by
  decide

theorem lowerhexAt_mem (i : Nat) (h : i < 16) : lowerhexAt i ∈ lowerhex.toList := by
  interval_cases i <;> decide

theorem unescape_escapeAsStated (c : Char) (rest : List Char) :
    unescape (escapeAsStated c ++ rest) = c :: unescape rest := by
  unfold escapeAsStated
  by_cases hesc : c = '"' ∨ c = '\\' ∨ c.toNat < 0x20
  · have hn : c.toNat < 93 := by
      rcases hesc with h | h | h
      · subst h; decide
      · subst h; decide
      · omega
    rw [if_pos hesc]
    simp only [hex4, List.cons_append, List.nil_append, unescape]
    rw [hex4_roundtrip c.toNat hn, Char.ofNat_toNat]
    rfl
  · rw [if_neg hesc]
    have hb : c ≠ '\\' := fun h => hesc (Or.inr (Or.inl h))
    simp only [List.cons_append, List.nil_append]
    rw [unescape]
    intro h₁ h₂ h₃ h₄ r hc
    exact absurd hc hb

theorem unescape_flatMap (l : List Char) : unescape (l.flatMap escapeAsStated) = l := by
  induction l with
  | nil => simp [unescape]
  | cons c l ih => rw [List.flatMap_cons, unescape_escapeAsStated, ih]

theorem known_some_iff (s : String) (b : Buffer) (h : s ∈ knownFields) :
    (some b = none ↔ s ∉ knownFields) := by
  simp [h]

theorem encodeField_eq_none_iff (ext : Externals) (e : JsonEncoder) (m : Message)
    (first : Bool) (buf : Buffer) (f : String) :
    encodeField ext e m first buf f = none ↔ ext.ToLower f ∉ knownFields := by
  unfold encodeField
  generalize ext.ToLower f = s
  by_cases h1 : s = "uuid"
  · simp only [h1, ↓reduceIte]
    exact known_some_iff _ _ (by decide)
  by_cases h2 : s = "timestamp"
  · simp only [h1, h2, ↓reduceIte]
    exact known_some_iff _ _ (by decide)
  by_cases h3 : s = "type"
  · simp only [h1, h2, h3, ↓reduceIte]
    exact known_some_iff _ _ (by decide)
  by_cases h4 : s = "logger"
  · simp only [h1, h2, h3, h4, ↓reduceIte]
    exact known_some_iff _ _ (by decide)
  by_cases h5 : s = "severity"
  · simp only [h1, h2, h3, h4, h5, ↓reduceIte]
    exact known_some_iff _ _ (by decide)
  by_cases h6 : s = "payload"
  · simp only [h1, h2, h3, h4, h5, h6, ↓reduceIte]
    exact known_some_iff _ _ (by decide)
  by_cases h7 : s = "envversion"
  · simp only [h1, h2, h3, h4, h5, h6, h7, ↓reduceIte]
    exact known_some_iff _ _ (by decide)
  by_cases h8 : s = "pid"
  · simp only [h1, h2, h3, h4, h5, h6, h7, h8, ↓reduceIte]
    exact known_some_iff _ _ (by decide)
  by_cases h9 : s = "hostname"
  · simp only [h1, h2, h3, h4, h5, h6, h7, h8, h9, ↓reduceIte]
    exact known_some_iff _ _ (by decide)
  by_cases h10 : s = "fields"
  · simp only [h1, h2, h3, h4, h5, h6, h7, h8, h9, h10, ↓reduceIte]
    exact known_some_iff _ _ (by decide)
  simp only [h1, h2, h3, h4, h5, h6, h7, h8, h9, h10, ↓reduceIte, true_iff]
  simp [knownFields, h1, h2, h3, h4, h5, h6, h7, h8, h9, h10]

theorem encodeFields_find (ext : Externals) (e : JsonEncoder) (m : Message) :
    ∀ (fs : List String) (first : Bool) (buf : Buffer),
      match fs.find? (fun f => decide (ext.ToLower f ∉ knownFields)) with
      | some f => encodeFields ext e m fs first buf = .error ("Unable to find field: " ++ f)
      | none => ∃ out, encodeFields ext e m fs first buf = .ok out := by
  intro fs
  induction fs with
  | nil => intro first buf; exact ⟨buf, rfl⟩
  | cons f fs ih =>
    intro first buf
    by_cases hf : ext.ToLower f ∉ knownFields
    · have hnone := (encodeField_eq_none_iff ext e m first buf f).2 hf
      simp [List.find?_cons, hf, encodeFields, hnone]
    · have hsome : ∃ b', encodeField ext e m first buf f = some b' := by
        cases h : encodeField ext e m first buf f with
        | none => exact absurd ((encodeField_eq_none_iff ext e m first buf f).1 h) hf
        | some b' => exact ⟨b', rfl⟩
      obtain ⟨b', hb'⟩ := hsome
      have := ih false b'
      simp only [List.find?_cons, hf, decide_False, encodeFields, hb']
      exact this

/-! ## The claims on the JSON encoder -/

/-- C18: `writeQuotedString` appends a double quote, the encoding of the string
and a double quote; the encoding is, character by character, the one the claim
words (`escapeAsStated`): a double quote, a backslash or a code point below 0x20
is written as `\u` and its four lowercase hexadecimal digits, every other
character unchanged.  So every character of the encoding is either a character
of the string that is none of those, or belongs to a six-character escape, and
un-escaping the encoding gives back the string. -/
theorem C18_writeQuotedString_escapes (b : Buffer) (str : String) :
    writeQuotedString b str
        = b ++ ['"'] ++ str.toList.flatMap escapeAsStated ++ ['"'] ∧
      (∀ c : Char,
        (escapeAsStated c = [c] ∧ c ≠ '"' ∧ c ≠ '\\' ∧ 0x20 ≤ c.toNat) ∨
        ((c = '"' ∨ c = '\\' ∨ c.toNat < 0x20) ∧
          ∃ h₁ h₂ h₃ h₄, escapeAsStated c = ['\\', 'u', h₁, h₂, h₃, h₄] ∧
            h₁ ∈ lowerhex.toList ∧ h₂ ∈ lowerhex.toList ∧ h₃ ∈ lowerhex.toList ∧
            h₄ ∈ lowerhex.toList ∧
            hexValue h₁ * 4096 + hexValue h₂ * 256 + hexValue h₃ * 16 + hexValue h₄
              = c.toNat)) ∧
      unescape (str.toList.flatMap escapeAsStated) = str.toList := by
  refine ⟨?_, ?_, unescape_flatMap _⟩
  · simp [writeQuotedString, WriteString, foldl_writeQuotedRune]
  · intro c
    by_cases hesc : c = '"' ∨ c = '\\' ∨ c.toNat < 0x20
    · right
      have hn : c.toNat < 93 := by
        rcases hesc with h | h | h
        · subst h; decide
        · subst h; decide
        · omega
      refine ⟨hesc, _, _, _, _, by simp [escapeAsStated, hesc, hex4], ?_, ?_, ?_, ?_,
        hex4_roundtrip c.toNat hn⟩
      · exact lowerhexAt_mem _ (Nat.mod_lt _ (by norm_num))
      · exact lowerhexAt_mem _ (Nat.mod_lt _ (by norm_num))
      · exact lowerhexAt_mem _ (Nat.mod_lt _ (by norm_num))
      · exact lowerhexAt_mem _ (Nat.mod_lt _ (by norm_num))
    · left
      simp only [not_or, not_lt] at hesc
      exact ⟨by simp [escapeAsStated, hesc.1, hesc.2.1, hesc.2.2], hesc.1, hesc.2.1, hesc.2.2⟩

/-- C19 (defect of the code): the members are not always separated by exactly
one comma.  With "Fields" configured first and a message without dynamic
fields the output starts with a comma after the brace; with "Fields" configured
first and two dynamic fields there is no comma between the two members.  The
two outputs are `{,"Uuid":"abc"}` and `{"a":"1""b":"2"}`, each followed by a
newline (the braces are written `\x7b` and `\x7d` in the statement). -/
theorem C19_fields_first_breaks_commas :
    Encode testExternals ⟨["Fields", "Uuid"], ""⟩ ⟨testMessage []⟩
        = (some "\x7b,\"Uuid\":\"abc\"\x7d\n".toList, none) ∧
      Encode testExternals ⟨["Fields"], ""⟩
          ⟨testMessage [⟨"a", .string "1"⟩, ⟨"b", .string "2"⟩]⟩
        = (some "\x7b\"a\":\"1\"\"b\":\"2\"\x7d\n".toList, none) := by
  decide

/-- C20: `Encode` returns an error exactly when some configured field name has a
lower-case form that is not one of uuid, timestamp, type, logger, severity,
payload, envversion, pid, hostname, fields; it then returns a nil output and
the error "Unable to find field: " followed by the first such name in
configured order; otherwise it returns an output and a nil error. -/
theorem C20_encode_fails_on_first_unknown_field (ext : Externals) (e : JsonEncoder)
    (pack : PipelinePack) :
    ((Encode ext e pack).2 ≠ none ↔ ∃ f ∈ e.fields, ext.ToLower f ∉ knownFields) ∧
      (∀ f, e.fields.find? (fun f => decide (ext.ToLower f ∉ knownFields)) = some f →
        Encode ext e pack = (none, some ("Unable to find field: " ++ f))) ∧
      ((Encode ext e pack).2 = none → (Encode ext e pack).1 ≠ none) := by
  have h := encodeFields_find ext e pack.Message e.fields true (WriteString [] "\x7b")
  cases hfind : e.fields.find? (fun f => decide (ext.ToLower f ∉ knownFields)) with
  | some f =>
    rw [hfind] at h
    simp only at h
    have hmem := List.mem_of_find?_eq_some hfind
    have hp := List.find?_some hfind
    simp only [decide_eq_true_eq] at hp
    refine ⟨?_, ?_, ?_⟩
    · simp only [Encode, h]
      simp only [ne_eq, reduceCtorEq, not_false_eq_true, true_iff]
      exact ⟨f, hmem, hp⟩
    · intro f' hf'
      simp only [Option.some.injEq] at hf'
      subst hf'
      simp [Encode, h]
    · simp [Encode, h]
  | none =>
    rw [hfind] at h
    obtain ⟨out, hout⟩ := h
    have hall := List.find?_eq_none.1 hfind
    simp only [decide_eq_true_eq] at hall
    refine ⟨?_, ?_, ?_⟩
    · simp only [Encode, hout]
      simp only [ne_eq, not_true_eq_false, false_iff, not_exists, not_and]
      exact fun f hf => hall f hf
    · intro f hf; simp at hf
    · simp [Encode, hout]

/-- Witness of C20: the name "Color" is the first unknown one of the configured
names "Uuid", "Color", "Shape". -/
theorem C20_encode_fails_on_first_unknown_field_witness :
    Encode testExternals ⟨["Uuid", "Color", "Shape"], ""⟩ ⟨testMessage []⟩
      = (none, some ("Unable to find field: " ++ "Color")) :=
  (C20_encode_fails_on_first_unknown_field testExternals ⟨["Uuid", "Color", "Shape"], ""⟩
    ⟨testMessage []⟩).2.1 "Color" (by decide)

end Heka.Plugins
